import Mathlib

/-!
Account server: wire codec, read-event reassembly, message queue and dispatch,
legacy text requests, socket backends and connection pool.

A shallow embedding of the framing layer (`message_header.h`,
`message_handler.cpp`), of `NetworkServer::onReadEvent`, of `MessageQueue`,
`MainLoop` and `MainLoopHandler`, of the registered handlers, of `removeSocket` in
the two backends and of `MySQLPool`, followed by the theorems that relate the prose
specification to that code.

Conventions of the embedding:
* `uint8_t` is `Fin 256`, `uint32_t` is `Fin 4294967296`; every narrowing
  conversion is an explicit `%`;
* `size_t` arithmetic is 64-bit and written with an explicit `% 2 ^ 64`;
* `std::vector<uint8_t>` and `std::string` are `List Byte`;
* a `bool` result filled in through `this` becomes an `Option`.
-/

namespace GameServer

/-! ## Machine integers -/

/-- One octet, `uint8_t`. -/
abbrev Byte := Fin 256

/-- A value of type `uint32_t`. -/
abbrev U32 := Fin 4294967296

/-- Conversion to `uint8_t`: keeps the low eight bits. -/
def toByte (n : Nat) : Byte := ⟨n % 256, Nat.mod_lt _ (by decide)⟩

/-- Conversion to `uint32_t`: keeps the low thirty-two bits. -/
def toU32 (n : Nat) : U32 := ⟨n % 4294967296, Nat.mod_lt _ (by decide)⟩

/-- Modulus of `size_t` arithmetic. -/
def sizeMod : Nat := 2 ^ 64

/-- The constant `sizeof(MessageHeader)`: two `uint32_t` fields. -/
def headerSize : Nat := 8

/-! ## `message_header.h` -/

/-- The struct `MessageHeader`. -/
structure MessageHeader where
  messageId : U32
  dataLength : U32
deriving DecidableEq, Repr

/-- `MessageHeader::serialize`: eight bytes, each field most significant byte first. -/
def MessageHeader.serialize (h : MessageHeader) : List Byte :=
  [ toByte ((h.messageId.val >>> 24) &&& 0xFF),
    toByte ((h.messageId.val >>> 16) &&& 0xFF),
    toByte ((h.messageId.val >>> 8) &&& 0xFF),
    toByte (h.messageId.val &&& 0xFF),
    toByte ((h.dataLength.val >>> 24) &&& 0xFF),
    toByte ((h.dataLength.val >>> 16) &&& 0xFF),
    toByte ((h.dataLength.val >>> 8) &&& 0xFF),
    toByte (h.dataLength.val &&& 0xFF) ]

/-- The expression `(uint32_t(a) << 24) | (uint32_t(b) << 16) | (uint32_t(c) << 8) | uint32_t(d)`
of `MessageHeader::deserialize`. -/
def packU32 (a b c d : Byte) : U32 :=
  toU32 ((toU32 (a.val <<< 24)).val ||| (toU32 (b.val <<< 16)).val
    ||| (toU32 (c.val <<< 8)).val ||| d.val)

/-- `MessageHeader::deserialize(data, size)` with `size = data.length`; `none` is the
`false` result, `some h` the `true` result together with the fields it stored. -/
def MessageHeader.deserialize (data : List Byte) : Option MessageHeader :=
  if data.length < 8 then none
  else some
    { messageId := packU32 (data.getD 0 0) (data.getD 1 0) (data.getD 2 0) (data.getD 3 0)
      dataLength := packU32 (data.getD 4 0) (data.getD 5 0) (data.getD 6 0) (data.getD 7 0) }

/-- The class `NetworkMessage`: a header and the bytes of a `MessageBody`. -/
structure NetworkMessage where
  header : MessageHeader
  body : List Byte
deriving DecidableEq, Repr

/-- The constructor `NetworkMessage(messageId, data)`: the `size_t` length of the body is
narrowed to the `uint32_t` field `dataLength`. -/
def NetworkMessage.new (messageId : U32) (data : List Byte) : NetworkMessage :=
  { header := { messageId := messageId, dataLength := toU32 data.length }, body := data }

/-- `NetworkMessage::getTotalSize`. -/
def NetworkMessage.getTotalSize (m : NetworkMessage) : Nat :=
  (headerSize + m.header.dataLength.val) % sizeMod

/-- `NetworkMessage::serialize`. -/
def NetworkMessage.serialize (m : NetworkMessage) : List Byte :=
  let result := [] ++ m.header.serialize
  if !m.body.isEmpty then result ++ m.body else result

/-- `NetworkMessage::deserialize(data, size)` with `size = data.length`. -/
def NetworkMessage.deserialize (data : List Byte) : Option NetworkMessage :=
  match MessageHeader.deserialize data with
  | none => none
  | some header =>
    let expectedSize := (headerSize + header.dataLength.val) % sizeMod
    if data.length < expectedSize then none
    else if header.dataLength.val > 0 then
      some { header := header, body := (data.drop headerSize).take header.dataLength.val }
    else
      some { header := header, body := [] }

/-! ## `message_handler.cpp`: `MessageParser` -/

/-- `MessageParser::parseMessage`. -/
def MessageParser.parseMessage (data : List Byte) : Option NetworkMessage :=
  if data.length < headerSize then none
  else
    match NetworkMessage.deserialize data with
    | some message => some message
    | none => none

/-- `MessageParser::isCompleteMessage`. -/
def MessageParser.isCompleteMessage (data : List Byte) : Bool :=
  if data.length < headerSize then false
  else
    match MessageHeader.deserialize data with
    | none => false
    | some header =>
      let expectedSize := (headerSize + header.dataLength.val) % sizeMod
      decide (data.length ≥ expectedSize)

/-! ## Reference notions taken from the prose specification -/

/-- Big-endian value of the four bytes of `b` starting at offset `i`. -/
def beValue (b : List Byte) (i : Nat) : Nat :=
  (b.getD i 0).val * 16777216 + (b.getD (i + 1) 0).val * 65536
    + (b.getD (i + 2) 0).val * 256 + (b.getD (i + 3) 0).val

/-- Big-endian encoding of `n` on four bytes. -/
def beBytes (n : Nat) : List Byte :=
  [toByte (n / 16777216), toByte (n / 65536), toByte (n / 256), toByte n]

/-! ## `message.h`, `message.cpp`: application messages and the queue -/

/-- The enum `MessageType`. -/
inductive MessageType where
  | LOGIN
  | REGISTER
  | LOGOUT
  | QUERY_DATA
  | UPDATE_DATA
  | CUSTOM
deriving DecidableEq, Repr

/-- The classes `Message`, `LoginMessage` and `RegisterMessage`. The generated id and the
creation timestamp of the base class are not part of the embedding. -/
inductive Message where
  | generic (type : MessageType) (payload : List Byte) (clientId : List Byte)
  | login (username password : List Byte) (clientId : List Byte)
  | register (username password email : List Byte) (clientId : List Byte)
deriving DecidableEq, Repr

/-- The two exceptions thrown by `MessageQueue::push`. -/
inductive QueueError where
  | invalidArgument
  | runtimeError
deriving DecidableEq, Repr

/-- The class `MessageQueue`: front of the queue is the head of the list. -/
structure MessageQueue where
  queue : List Message
  shutdown : Bool
deriving DecidableEq, Repr

/-- `MessageQueue::push`; a null `MessagePtr` is `none`. -/
def MessageQueue.push (q : MessageQueue) (message : Option Message) :
    Except QueueError MessageQueue :=
  match message with
  | none => .error .invalidArgument
  | some m =>
    if q.shutdown then .error .runtimeError
    else .ok { q with queue := q.queue ++ [m] }

/-- `MessageQueue::pop(wait)`, seen at the moment the call holds the mutex and, for
`wait = true`, tests the predicate of its wait. The outer `none` says that the predicate
is false: the call stays blocked. Otherwise the result is the pointer returned (`none`
for null) and the queue left behind. -/
def MessageQueue.pop (q : MessageQueue) (wait : Bool) :
    Option (Option Message × MessageQueue) :=
  if wait then
    if !(q.shutdown || !q.queue.isEmpty) then none
    else if q.shutdown && q.queue.isEmpty then some (none, q)
    else some (q.queue.head?, { q with queue := q.queue.tail })
  else
    if q.queue.isEmpty then some (none, q)
    else some (q.queue.head?, { q with queue := q.queue.tail })

/-- `MessageQueue::shutdown()` (the flag `shutdown_` is the field `shutdown`). -/
def MessageQueue.shutdownQueue (q : MessageQueue) : MessageQueue :=
  { q with shutdown := true }

/-- The queue object after a call of `push`: the queue the call leaves when it returns,
and the queue as it was when the call throws (both `throw` statements come before the
only write to the queue). -/
def MessageQueue.afterPush (q : MessageQueue) (message : Option Message) : MessageQueue :=
  match q.push message with
  | .ok q1 => q1
  | .error _ => q

/-- Successive calls `push(m)` for the messages of a list, in order; stops at the first
call that throws. -/
def MessageQueue.pushAll (q : MessageQueue) : List Message → Except QueueError MessageQueue
  | [] => .ok q
  | m :: ms =>
    match q.push (some m) with
    | .ok q1 => MessageQueue.pushAll q1 ms
    | .error e => .error e

/-- Successive calls `pop(wait)`, one for each flag of the list, in order: the pointers
returned and the queue left, or `none` when one of the calls stays blocked. -/
def MessageQueue.pops (q : MessageQueue) :
    List Bool → Option (List (Option Message) × MessageQueue)
  | [] => some ([], q)
  | w :: ws =>
    match q.pop w with
    | none => none
    | some (r, q1) =>
      match MessageQueue.pops q1 ws with
      | none => none
      | some (rs, q2) => some (r :: rs, q2)

/-- The part of the class `MainLoop` that owns the message queue. -/
structure MainLoop where
  messageQueue : MessageQueue
deriving DecidableEq, Repr

/-- `MainLoop::addMessage`. -/
def MainLoop.addMessage (ml : MainLoop) (message : Option Message) :
    Except QueueError MainLoop :=
  match message with
  | some m =>
    match ml.messageQueue.push (some m) with
    | .ok q => .ok { ml with messageQueue := q }
    | .error e => .error e
  | none => .ok ml

/-! ## `message_handler.cpp`: conversion of a frame to an application message -/

/-- `std::string::find(c, pos)`; `none` is `npos`. -/
def strFind (s : List Byte) (c : Byte) (pos : Nat) : Option Nat :=
  let i := (s.drop pos).indexOf c
  if i < (s.drop pos).length then some (pos + i) else none

/-- `std::string::substr(pos, n)` for `pos` within the string. -/
def substr (s : List Byte) (pos n : Nat) : List Byte := (s.drop pos).take n

/-- `std::string::substr(pos)` for `pos` within the string. -/
def substrFrom (s : List Byte) (pos : Nat) : List Byte := s.drop pos

/-- `std::to_string` on an unsigned value: its decimal digits. -/
def to_string (n : Nat) : List Byte := (Nat.toDigits 10 n).map fun ch => toByte ch.toNat

/-- The byte `'|'`. -/
def pipeChar : Byte := 124

/-- `convertNetworkMessageToMessage(networkMessage, clientId)`, with `clientId` a
`uint64_t`. The result is never null. -/
def convertNetworkMessageToMessage (networkMessage : NetworkMessage) (clientId : Nat) :
    Message :=
  let header := networkMessage.header
  let body := networkMessage.body
  let messageId := header.messageId.val
  let type : MessageType :=
    if messageId = 1001 then .LOGIN
    else if messageId = 1002 then .REGISTER
    else if messageId = 1003 then .LOGOUT
    else if messageId = 2001 then .QUERY_DATA
    else if messageId = 2002 then .UPDATE_DATA
    else .CUSTOM
  match type with
  | .LOGIN =>
    let bodyData := body
    match strFind bodyData pipeChar 0 with
    | some pos =>
      .login (substr bodyData 0 pos) (substrFrom bodyData (pos + 1)) (to_string clientId)
    | none => .login [] [] (to_string clientId)
  | .REGISTER =>
    let bodyData := body
    let pos1 := strFind bodyData pipeChar 0
    -- `npos + 1` wraps around to 0
    let pos2 := strFind bodyData pipeChar (match pos1 with | some p => p + 1 | none => 0)
    match pos1, pos2 with
    | some p1, some p2 =>
      .register (substr bodyData 0 p1) (substr bodyData (p1 + 1) (p2 - p1 - 1))
        (substrFrom bodyData (p2 + 1)) (to_string clientId)
    | _, _ => .register [] [] [] (to_string clientId)
  | t => .generic t body (to_string clientId)

/-! ## `NetworkServer.cpp`: the read-event handler -/

/-- The fields of `IOEvent` read by `onReadEvent`: the socket handle and the bytes read. -/
structure IOEvent where
  socket : Nat
  data : List Byte
deriving DecidableEq, Repr

/-- The state of `NetworkServer` touched by `onReadEvent`: the map `messageBuffers_`
(a key that is absent reads as the empty buffer, which is what `operator[]` creates),
the pointer `mainLoop_` together with the object it points to, and the error responses
sent from the `catch` block. -/
structure NetworkServer where
  messageBuffers : Nat → List Byte
  mainLoop : Option MainLoop
  sentResponses : List (Nat × NetworkMessage)

/-- The buffer cap of `onReadEvent`, `64 * 1024`. -/
def maxBufferSize : Nat := 64 * 1024

/-- The statement `if (mainLoop_) { convert; if (messagePtr) addMessage }` of the loop
body. The socket handle is converted to the `uint64_t` parameter `clientId`. -/
def handOff (mainLoop : Option MainLoop) (message : NetworkMessage) (socket : Nat) :
    Except QueueError (Option MainLoop) :=
  match mainLoop with
  | some ml =>
    let messagePtr := some (convertNetworkMessageToMessage message (socket % 2 ^ 64))
    match ml.addMessage messagePtr with
    | .ok ml1 => .ok (some ml1)
    | .error e => .error e
  | none => .ok none

/-- Outcome of the parsing loop: the buffer and main loop it leaves, and whether it was
left through an exception. -/
structure LoopResult where
  buffer : List Byte
  mainLoop : Option MainLoop
  threw : Bool

/-- The loop `while (buffer.size() >= sizeof(MessageHeader))` of `onReadEvent`. The first
argument bounds the number of iterations; every iteration that continues erases at least
eight bytes, so the buffer length is a sufficient bound. -/
def parseLoop (socket : Nat) : Nat → List Byte → Option MainLoop → LoopResult
  | 0, buffer, mainLoop => { buffer := buffer, mainLoop := mainLoop, threw := false }
  | fuel + 1, buffer, mainLoop =>
    if buffer.length ≥ headerSize then
      if !MessageParser.isCompleteMessage buffer then
        { buffer := buffer, mainLoop := mainLoop, threw := false }
      else
        match MessageParser.parseMessage buffer with
        | none => { buffer := [], mainLoop := mainLoop, threw := false }
        | some message =>
          match handOff mainLoop message socket with
          | .error _ => { buffer := buffer, mainLoop := mainLoop, threw := true }
          | .ok mainLoop1 =>
            let messageSize := message.getTotalSize
            if messageSize ≤ buffer.length then
              parseLoop socket fuel (buffer.drop messageSize) mainLoop1
            else
              { buffer := [], mainLoop := mainLoop1, threw := false }
    else
      { buffer := buffer, mainLoop := mainLoop, threw := false }

/-- Result of one call of `onReadEvent`: the server state it leaves and whether the
`catch` block ran. -/
structure ReadResult where
  server : NetworkServer
  exceptionCaught : Bool

/-- `MessageUtils::createErrorResponse(0, "Internal server error")`. -/
def internalErrorResponse : NetworkMessage :=
  NetworkMessage.new 9001
    [73, 110, 116, 101, 114, 110, 97, 108, 32, 115, 101, 114, 118, 101, 114, 32,
     101, 114, 114, 111, 114]

/-- `NetworkServer::onReadEvent`. The call `notifyDataReceived`, which hands the bytes to
the registered listeners and touches none of this state, is left out. -/
def NetworkServer.onReadEvent (srv : NetworkServer) (event : IOEvent) : ReadResult :=
  if event.data.isEmpty then { server := srv, exceptionCaught := false }
  else
    let data := event.data
    let buffer := srv.messageBuffers event.socket ++ data
    let r := parseLoop event.socket buffer.length buffer srv.mainLoop
    if r.threw then
      { server :=
          { messageBuffers := Function.update srv.messageBuffers event.socket r.buffer
            mainLoop := r.mainLoop
            sentResponses := srv.sentResponses ++ [(event.socket, internalErrorResponse)] }
        exceptionCaught := true }
    else
      let buffer1 := if r.buffer.length > maxBufferSize then [] else r.buffer
      { server :=
          { messageBuffers := Function.update srv.messageBuffers event.socket buffer1
            mainLoop := r.mainLoop
            sentResponses := srv.sentResponses }
        exceptionCaught := false }

/-- Successive read events on one socket, one per chunk, in order. -/
def NetworkServer.receive (srv : NetworkServer) (socket : Nat) (chunks : List (List Byte)) :
    NetworkServer :=
  chunks.foldl (fun s chunk => (s.onReadEvent { socket := socket, data := chunk }).server) srv

/-- Any sequence of read events, on any sockets, handled in order. -/
def NetworkServer.readEvents (srv : NetworkServer) (events : List IOEvent) : NetworkServer :=
  events.foldl (fun s event => (s.onReadEvent event).server) srv

/-- One wire frame: a message id and a body. -/
abbrev Frame := U32 × List Byte

/-- The bytes `NetworkMessage(messageId, body).serialize()` of a frame. -/
def Frame.bytes (f : Frame) : List Byte := (NetworkMessage.new f.1 f.2).serialize

/-- The total size `8 + body length` of a frame. -/
def Frame.size (f : Frame) : Nat := headerSize + f.2.length

/-! ## `MySQLPool.cpp`: the connection pool -/

/-- The state of a `MySQLConnection` object the pool looks at: `id` tells connection
objects apart, `connected` is the flag `connected_` and `valid` tells whether
`connection_` holds a driver session that answers `isValid()` with true (it is false
while `connection_` is null). -/
structure MySQLConnection where
  id : Nat
  connected : Bool
  valid : Bool
deriving DecidableEq, Repr

/-- The constructor of `MySQLConnection`: `connected_(false)` and no driver session. -/
def MySQLConnection.new (id : Nat) : MySQLConnection :=
  { id := id, connected := false, valid := false }

/-- `MySQLConnection::isConnected`. -/
def MySQLConnection.isConnected (c : MySQLConnection) : Bool :=
  if !c.connected then false else c.valid

/-- `MySQLConnection::ping`. -/
def MySQLConnection.ping (c : MySQLConnection) : Bool :=
  if !c.connected then false else c.valid

/-- `MySQLConnection::connect`: the value returned and the object left. `accepted` tells
whether the database accepts the connection, that is, whether the driver's `connect`
hands back a live session (otherwise it throws or returns null, and `connect()` returns
false); `createStatement` is taken to succeed. The test `if (!ping())` runs before the
only assignment `connected_ = true`. -/
def MySQLConnection.connect (c : MySQLConnection) (accepted : Bool) :
    Bool × MySQLConnection :=
  if c.connected then (true, c)
  else if !accepted then (false, c)
  else
    let c1 : MySQLConnection := { c with valid := true }
    if !c1.ping then (false, c1)
    else (true, { c1 with connected := true })

/-- The size fields of `MySQLPool::Config` (both are `int`). -/
structure Config where
  minPoolSize : Int
  maxPoolSize : Int
deriving DecidableEq, Repr

/-- The class `MySQLPool`. The back of the vector `idleConnections_` is the end of the
list and a null `unique_ptr` is `none`. `nextId` numbers the connection objects
constructed so far; the database is a function `db` telling, for each of them, whether
the database accepts its connection. -/
structure MySQLPool where
  config : Config
  idleConnections : List (Option MySQLConnection)
  activeConnections : Int
  totalConnections : Int
  shutdown : Bool
  currentPoolSize : Int
  nextId : Nat
deriving DecidableEq, Repr

/-- The constructor `MySQLPool(config)`. -/
def MySQLPool.new (config : Config) : MySQLPool :=
  { config := config, idleConnections := [], activeConnections := 0, totalConnections := 0,
    shutdown := false, currentPoolSize := 0, nextId := 0 }

/-- `MySQLPool::canCreateNewConnection`. -/
def MySQLPool.canCreateNewConnection (p : MySQLPool) : Bool :=
  decide (p.totalConnections < p.config.maxPoolSize) &&
    decide (p.activeConnections < p.config.maxPoolSize)

/-- `MySQLPool::isConnectionHealthy`. -/
def MySQLPool.isConnectionHealthy (conn : Option MySQLConnection) : Bool :=
  match conn with
  | none => false
  | some c => if !c.isConnected then false else c.ping

/-- `MySQLPool::createConnection`: a new `MySQLConnection` object is constructed and its
`connect()` is called; `db` tells whether the database accepts the connection. -/
def MySQLPool.createConnection (db : Nat → Bool) (p : MySQLPool) : Bool × MySQLPool :=
  if !p.canCreateNewConnection then (false, p)
  else
    let connection := (MySQLConnection.new p.nextId).connect (db p.nextId)
    if connection.1 then
      (true, { p with
        idleConnections := p.idleConnections ++ [some connection.2]
        totalConnections := p.totalConnections + 1
        activeConnections := p.activeConnections + 1
        nextId := p.nextId + 1 })
    else
      (false, { p with nextId := p.nextId + 1 })

/-- The loop `for (i = 0; i < minPoolSize; ++i)` of `initialize`, with the number of
iterations left. -/
def MySQLPool.preCreate (db : Nat → Bool) : Nat → MySQLPool → Bool × MySQLPool
  | 0, p => (true, p)
  | n + 1, p =>
    match p.createConnection db with
    | (false, p1) => (false, p1)
    | (true, p1) => MySQLPool.preCreate db n p1

/-- `MySQLPool::initialize`, up to the start of the two background threads. -/
def MySQLPool.initialize (db : Nat → Bool) (p : MySQLPool) : Bool × MySQLPool :=
  if p.config.minPoolSize < 0 || p.config.maxPoolSize < 0 ||
      p.config.minPoolSize > p.config.maxPoolSize then (false, p)
  else if p.config.minPoolSize > 0 then
    match MySQLPool.preCreate db p.config.minPoolSize.toNat p with
    | (false, p1) => (false, p1)
    | (true, p1) => (true, { p1 with currentPoolSize := p1.config.minPoolSize })
  else (true, p)

/-- `MySQLPool::acquire` called while no other thread uses the pool: a wait on the
condition variable then lasts until the deadline, so the loop body runs at most once. -/
def MySQLPool.acquire (db : Nat → Bool) (p : MySQLPool) :
    Option MySQLConnection × MySQLPool :=
  let enter := !p.shutdown && p.idleConnections.isEmpty && p.canCreateNewConnection
  let attempt := if enter then p.createConnection db else (true, p)
  let p1 := attempt.2
  if enter && !attempt.1 then (none, p1)
  else if p1.shutdown || p1.idleConnections.isEmpty then (none, p1)
  else
    let connection := p1.idleConnections.getLast?.join
    (connection, { p1 with
      idleConnections := p1.idleConnections.dropLast
      activeConnections := p1.activeConnections + 1 })

/-- The statement `if (currentPoolSize_ > 0) currentPoolSize_--`. -/
def decrementPoolSize (n : Int) : Int := if n > 0 then n - 1 else n

/-- The conversion `static_cast<size_t>` of an `int`. -/
def toSizeT (n : Int) : Nat := (n % (2 ^ 64 : Int)).toNat

/-- `MySQLPool::release`. -/
def MySQLPool.release (p : MySQLPool) (conn : Option MySQLConnection) : MySQLPool :=
  match conn with
  | none => p
  | some c =>
    if p.shutdown then p
    else if !MySQLPool.isConnectionHealthy (some c) then
      { p with
        totalConnections := p.totalConnections - 1
        currentPoolSize := decrementPoolSize p.currentPoolSize }
    else
      let p1 :=
        if p.idleConnections.length < toSizeT p.currentPoolSize then
          { p with idleConnections := p.idleConnections ++ [some c] }
        else
          { p with
            totalConnections := p.totalConnections - 1
            currentPoolSize := decrementPoolSize p.currentPoolSize }
      { p1 with activeConnections := p1.activeConnections - 1 }

/-- A database that accepts every connection. -/
def alwaysUp : Nat → Bool := fun _ => true

/-- The pool constructed from `config` and then initialized, with a database that accepts
every connection: the result of `initialize()` and the state it leaves. -/
def startedPool (config : Config) : Bool × MySQLPool :=
  MySQLPool.initialize alwaysUp (MySQLPool.new config)

/-- A call made on the pool by a client: `acquire()` or `release(conn)`. -/
inductive PoolCall where
  | acquire
  | release (conn : Option MySQLConnection)
deriving DecidableEq, Repr

/-- The pool after one client call. -/
def MySQLPool.call (db : Nat → Bool) (p : MySQLPool) : PoolCall → MySQLPool
  | .acquire => (p.acquire db).2
  | .release conn => p.release conn

/-- The pool after a sequence of client calls. -/
def MySQLPool.calls (db : Nat → Bool) (p : MySQLPool) (cs : List PoolCall) : MySQLPool :=
  cs.foldl (MySQLPool.call db) p

/-- The loop `for (i = 0; i < toCreate; ++i)` of `resizePool`, which stops at the first
`createConnection()` that fails; the first argument is the number of iterations left. -/
def MySQLPool.growLoop (db : Nat → Bool) : Nat → MySQLPool → MySQLPool
  | 0, p => p
  | n + 1, p =>
    match p.createConnection db with
    | (false, p1) => p1
    | (true, p1) => MySQLPool.growLoop db n p1

/-- The loop `for (i = 0; i < toRemove && !idleConnections_.empty(); ++i)` of
`resizePool`; the first argument is the number of iterations left. -/
def MySQLPool.shrinkLoop : Nat → MySQLPool → MySQLPool
  | 0, p => p
  | n + 1, p =>
    if p.idleConnections.isEmpty then p
    else
      MySQLPool.shrinkLoop n { p with
        idleConnections := p.idleConnections.dropLast
        totalConnections := p.totalConnections - 1 }

/-- `MySQLPool::resizePool`. The `int` differences are taken without overflow. -/
def MySQLPool.resizePool (db : Nat → Bool) (p : MySQLPool) (newSize : Int) : MySQLPool :=
  if newSize = p.currentPoolSize then p
  else
    let p1 :=
      if newSize > p.currentPoolSize then
        let toCreate := newSize - p.currentPoolSize
        MySQLPool.growLoop db toCreate.toNat p
      else
        let toRemove := p.currentPoolSize - newSize
        MySQLPool.shrinkLoop toRemove.toNat p
    { p1 with currentPoolSize := newSize }

/-- `MySQLPool::setPoolSize`: the value returned and the pool left. -/
def MySQLPool.setPoolSize (db : Nat → Bool) (p : MySQLPool) (newSize : Int) :
    Bool × MySQLPool :=
  if newSize < p.config.minPoolSize || newSize > p.config.maxPoolSize then (false, p)
  else (true, p.resizePool db newSize)

/-- `MySQLPool::increasePoolSize`: the value returned and the pool left. The `int` sum is
taken without overflow. -/
def MySQLPool.increasePoolSize (db : Nat → Bool) (p : MySQLPool) (increment : Int) :
    Bool × MySQLPool :=
  let newSize := p.currentPoolSize + increment
  if newSize > p.config.maxPoolSize then (false, p)
  else (true, p.resizePool db newSize)

/-- `MySQLPool::decreasePoolSize`: the value returned and the pool left. The `int`
difference is taken without overflow. -/
def MySQLPool.decreasePoolSize (db : Nat → Bool) (p : MySQLPool) (decrement : Int) :
    Bool × MySQLPool :=
  let newSize := p.currentPoolSize - decrement
  if newSize < p.config.minPoolSize then (false, p)
  else (true, p.resizePool db newSize)

/-- `MySQLPool::shutdown()` (the flag `shutdown_` is the field `shutdown`), without the
join of the two background threads. -/
def MySQLPool.shutdownPool (p : MySQLPool) : MySQLPool :=
  if p.shutdown then p
  else
    { p with
      shutdown := true
      idleConnections := []
      totalConnections := 0
      activeConnections := 0
      currentPoolSize := 0 }

/-- The pool constructed from `config` and then initialized against the database `db`:
the result of `initialize()` and the state it leaves. -/
def startedPoolOn (db : Nat → Bool) (config : Config) : Bool × MySQLPool :=
  MySQLPool.initialize db (MySQLPool.new config)

/-- One round of a client: `acquire()`, then `release` of what was obtained. The result
is the connection obtained and the pool after the release. -/
def MySQLPool.round (db : Nat → Bool) (p : MySQLPool) : Option MySQLConnection × MySQLPool :=
  ((p.acquire db).1, (p.acquire db).2.release (p.acquire db).1)

/-- A body of exactly `2 ^ 32` zero bytes: the shortest body whose length does not fit
the `uint32_t` field `dataLength`. -/
def oversizedBody : List Byte := List.replicate 4294967296 0

/-- The concatenated serializations of a sequence of frames, as sent on the wire. -/
def stream (fs : List Frame) : List Byte := (fs.map Frame.bytes).flatten

/-- The application message `onReadEvent` makes of a frame received on `socket`. -/
def decode (socket : Nat) (f : Frame) : Message :=
  convertNetworkMessageToMessage (NetworkMessage.new f.1 f.2) (socket % 2 ^ 64)

/-- The main loop with the messages `ms` appended, in order, to its queue. -/
def MainLoop.withQueued (ml : MainLoop) (ms : List Message) : MainLoop :=
  { messageQueue :=
      { queue := ml.messageQueue.queue ++ ms, shutdown := ml.messageQueue.shutdown } }

/-- A server with no buffered bytes, a main loop attached and an empty, open queue. -/
def freshServer : NetworkServer :=
  { messageBuffers := fun _ => []
    mainLoop := some { messageQueue := { queue := [], shutdown := false } }
    sentResponses := [] }

/-! ## `message.h`, `message_handler.cpp`: accessors and message builders -/

/-- `Message::getType`: the tag given to the base class by each constructor. -/
def Message.getType : Message → MessageType
  | .generic type _ _ => type
  | .login _ _ _ => .LOGIN
  | .register _ _ _ _ => .REGISTER

/-- `Message::getClientId`. -/
def Message.getClientId : Message → List Byte
  | .generic _ _ clientId => clientId
  | .login _ _ clientId => clientId
  | .register _ _ _ clientId => clientId

/-- `MessageUtils::packLoginData`: `username + "|" + password`. -/
def MessageUtils.packLoginData (username password : List Byte) : List Byte :=
  username ++ [pipeChar] ++ password

/-- `MessageUtils::packRegisterData`: `username + "|" + password + "|" + email`. -/
def MessageUtils.packRegisterData (username password email : List Byte) : List Byte :=
  username ++ [pipeChar] ++ password ++ [pipeChar] ++ email

/-- `MessageParser::createLoginMessage`. -/
def MessageParser.createLoginMessage (username password : List Byte) : NetworkMessage :=
  NetworkMessage.new 1001 (MessageUtils.packLoginData username password)

/-- `MessageParser::createRegisterMessage`. -/
def MessageParser.createRegisterMessage (username password email : List Byte) :
    NetworkMessage :=
  NetworkMessage.new 1002 (MessageUtils.packRegisterData username password email)

/-- The bytes of a string literal of the source (ASCII). -/
def ascii (s : String) : List Byte := s.toList.map fun ch => toByte ch.toNat

/-! ## `result.h`, `MainLoopHandler.cpp`, `MainLoop.cpp`: dispatch -/

/-- The enum `ResponseType`. -/
inductive ResponseType where
  | SUCCESS
  | SERVICE_ERROR
  | NOT_FOUND
  | INVALID_FORMAT
  | DATABASE_ERROR
deriving DecidableEq, Repr

/-- The conversion `static_cast<int>(responseType)`. -/
def ResponseType.toInt : ResponseType → Nat
  | .SUCCESS => 0
  | .SERVICE_ERROR => 1
  | .NOT_FOUND => 2
  | .INVALID_FORMAT => 3
  | .DATABASE_ERROR => 4

/-- One call `sendResponse(clientId, responseType, message, data)`. -/
structure Response where
  clientId : List Byte
  responseType : ResponseType
  message : List Byte
  data : List Byte
deriving DecidableEq, Repr

/-- What a thrown object is to a `catch (const std::exception&)` clause: derived from
`std::exception`, and caught, or not. -/
inductive Thrown where
  | stdException
  | other
deriving DecidableEq, Repr

/-- What a call of a handler does, as far as the main loop and the clients see it: the
calls of `sendResponse` it makes, in order, and the exception it ends with, if any. -/
structure HandlerRun where
  responses : List Response
  thrown : Option Thrown
deriving DecidableEq, Repr

/-- A non-empty `MessageHandler`, that is `std::function<void(const Message&)>`. -/
abbrev MessageHandler := Message → HandlerRun

/-- The class `MainLoopHandler`: the map `handlers_`. An absent key is `none`; the value
of a key is a `std::function`, `none` when it is empty. -/
structure MainLoopHandler where
  handlers : MessageType → Option (Option MessageHandler)

/-- The constructor of `MainLoopHandler`: no handler. -/
def MainLoopHandler.new : MainLoopHandler := { handlers := fun _ => none }

/-- `MainLoopHandler::registerHandler`: the value returned and the table left. -/
def MainLoopHandler.registerHandler (h : MainLoopHandler) (type : MessageType)
    (handler : Option MessageHandler) : Bool × MainLoopHandler :=
  match handler with
  | none => (false, h)
  | some f => (true, { handlers := Function.update h.handlers type (some (some f)) })

/-- `MainLoopHandler::unregisterHandler`: the value returned and the table left. -/
def MainLoopHandler.unregisterHandler (h : MainLoopHandler) (type : MessageType) :
    Bool × MainLoopHandler :=
  let erased := if (h.handlers type).isSome then 1 else 0
  let h1 : MainLoopHandler := { handlers := Function.update h.handlers type none }
  if erased > 0 then (true, h1) else (false, h1)

/-- `MainLoopHandler::hasHandler`. -/
def MainLoopHandler.hasHandler (h : MainLoopHandler) (type : MessageType) : Bool :=
  (h.handlers type).isSome

/-- What one call of `handleMessage` does: the handler calls it makes, each with its
argument, and the run of the handler called (nothing and no exception when none is). -/
structure Dispatch where
  invoked : List (MessageHandler × Message)
  run : HandlerRun

/-- `MainLoopHandler::handleMessage`. -/
def MainLoopHandler.handleMessage (h : MainLoopHandler) (message : Message) : Dispatch :=
  match h.handlers message.getType with
  | some (some f) => { invoked := [(f, message)], run := f message }
  | _ => { invoked := [], run := { responses := [], thrown := none } }

/-- `MainLoop::getNextMessage`: the pointer returned and the main loop left. -/
def MainLoop.getNextMessage (ml : MainLoop) : Option Message × MainLoop :=
  match ml.messageQueue.pop false with
  | some (r, q) => (r, { ml with messageQueue := q })
  | none => (none, ml)

/-- What one iteration of the loop of `runLoop` does: the main loop it leaves, the calls
of `sendResponse` made, whether the `catch` block ran and whether an exception left the
function. -/
structure Iteration where
  mainLoop : MainLoop
  responses : List Response
  caught : Bool
  escaped : Bool
deriving DecidableEq, Repr

/-- The body of the loop `while (running_)` of `MainLoop::runLoop`, with the handler
table `messageHandler_`. -/
def MainLoop.iteration (ml : MainLoop) (messageHandler : MainLoopHandler) : Iteration :=
  match ml.getNextMessage with
  | (some message, ml1) =>
    let d := messageHandler.handleMessage message
    match d.run.thrown with
    | none => { mainLoop := ml1, responses := d.run.responses, caught := false,
                escaped := false }
    | some .stdException =>
      { mainLoop := ml1, responses := d.run.responses, caught := true, escaped := false }
    | some .other =>
      { mainLoop := ml1, responses := d.run.responses, caught := false, escaped := true }
  | (none, ml1) => { mainLoop := ml1, responses := [], caught := false, escaped := false }

/-- `MainLoop::runLoop` for a number of iterations during which `running_` stays true:
the main loop left, all calls of `sendResponse` in order, and whether an exception left
the function (which ends the loop). -/
def MainLoop.runLoop (messageHandler : MainLoopHandler) :
    Nat → MainLoop → MainLoop × List Response × Bool
  | 0, ml => (ml, [], false)
  | n + 1, ml =>
    let it := ml.iteration messageHandler
    if it.escaped then (it.mainLoop, it.responses, true)
    else
      let r := MainLoop.runLoop messageHandler n it.mainLoop
      (r.1, it.responses ++ r.2.1, r.2.2)

/-! ## `GameServer.cpp`, `NetworkServer.cpp`: the registered handlers and the response -/

/-- The first handler registered by `GameServerApp::registerMessageHandlers`, for
`LOGIN`. `verifyPassword` stands for `AccountDB::verifyPassword`: the value it returns
or the exception it throws. -/
def loginHandler (verifyPassword : List Byte → List Byte → Except Thrown Bool) :
    MessageHandler
  | .login username password clientId =>
    match verifyPassword username password with
    | .ok true =>
      { responses := [⟨clientId, .SUCCESS, ascii "Login successful", []⟩], thrown := none }
    | .ok false =>
      { responses := [⟨clientId, .SERVICE_ERROR, ascii "Invalid credentials", []⟩],
        thrown := none }
    | .error .stdException =>
      { responses := [⟨clientId, .SERVICE_ERROR, ascii "Failed to process login", []⟩],
        thrown := none }
    | .error .other => { responses := [], thrown := some .other }
  | _ => { responses := [], thrown := none }

/-- The second handler registered by `GameServerApp::registerMessageHandlers`, for
`REGISTER`. `createAccount` stands for `AccountDB::createAccount` applied to the account
made of the three fields and the status `"active"`. -/
def registerMessageHandler
    (createAccount : List Byte → List Byte → List Byte → Except Thrown Bool) :
    MessageHandler
  | .register username password email clientId =>
    match createAccount username password email with
    | .ok true =>
      { responses := [⟨clientId, .SUCCESS, ascii "Registration successful", []⟩],
        thrown := none }
    | .ok false =>
      { responses := [⟨clientId, .SERVICE_ERROR, ascii "Registration failed", []⟩],
        thrown := none }
    | .error .stdException =>
      { responses := [⟨clientId, .SERVICE_ERROR, ascii "Failed to process register", []⟩],
        thrown := none }
    | .error .other => { responses := [], thrown := some .other }
  | _ => { responses := [], thrown := none }

/-- The string `response` built by `NetworkServer::sendResponseToClient`. -/
def responseText (responseType : ResponseType) (message data : List Byte) : List Byte :=
  let response := ascii "RESPONSE:" ++ to_string responseType.toInt ++ ascii ":" ++ message
  if !data.isEmpty then response ++ (ascii ":" ++ data) else response

/-- `NetworkServer::sendResponseToClient`: the call `sendToClient(clientSocket, response)`
it makes, or `none` when `std::stoi` throws (the exception is caught and nothing is
sent). `stoi` stands for `std::stoi`, `none` being a throw. -/
def NetworkServer.sendResponseToClient (stoi : List Byte → Option Int) (r : Response) :
    Option (Int × List Byte) :=
  match stoi r.clientId with
  | some clientSocket => some (clientSocket, responseText r.responseType r.message r.data)
  | none => none

/-- `GameServerApp::sendResponse`: as `sendResponseToClient` when the pointer `server` is
set, nothing otherwise. -/
def sendResponse (server : Bool) (stoi : List Byte → Option Int) (r : Response) :
    Option (Int × List Byte) :=
  if server then NetworkServer.sendResponseToClient stoi r else none

/-! ## `NetworkServer.cpp`: the legacy text requests -/

/-- The byte `':'`. -/
def colonChar : Byte := 58

/-- The idiom `s.erase(std::remove(s.begin(), s.end(), c), s.end())`. -/
def eraseChar (s : List Byte) (c : Byte) : List Byte := s.filter fun x => x != c

/-- The field of `AccountInfo` read by `processLoginRequest`. -/
structure AccountInfo where
  password : List Byte
deriving DecidableEq, Repr

/-- The reply of `processLoginRequest` to a request it does not take for a login. -/
def invalidLoginFormat : List Byte :=
  ascii "ERROR:Invalid login format. Use LOGIN:username:password"

/-- `NetworkServer::processLoginRequest`. `getAccountByUsername` stands for
`AccountDB::getAccountByUsername`: the account found, or `none` for `false`. -/
def NetworkServer.processLoginRequest
    (getAccountByUsername : List Byte → Option AccountInfo) (request : List Byte) :
    List Byte :=
  if substr request 0 6 = ascii "LOGIN:" then
    let firstColon := strFind request colonChar 6
    -- `npos + 1` wraps around to 0
    let secondColon :=
      strFind request colonChar (match firstColon with | some p => p + 1 | none => 0)
    match firstColon, secondColon with
    | some fc, some sc =>
      let username := substr request (fc + 1) (sc - fc - 1)
      let password := substrFrom request (sc + 1)
      let username := eraseChar (eraseChar username 13) 10
      let password := eraseChar (eraseChar password 13) 10
      match getAccountByUsername username with
      | some account =>
        if account.password = password then
          ascii "SUCCESS:Login successful! Welcome " ++ username
        else ascii "ERROR:Invalid username or password"
      | none => ascii "ERROR:Invalid username or password"
    | _, _ => invalidLoginFormat
  else invalidLoginFormat

/-- The part of the loop body of `NetworkServer::handleClient` that makes a message of
the request received: `none` is the null `MessagePtr`. -/
def NetworkServer.parseRequest (clientSocket : Nat) (request : List Byte) : Option Message :=
  if substr request 0 6 = ascii "LOGIN:" then
    let firstColon := strFind request colonChar 6
    let secondColon :=
      strFind request colonChar (match firstColon with | some p => p + 1 | none => 0)
    match firstColon, secondColon with
    | some fc, some sc =>
      let username := substr request (fc + 1) (sc - fc - 1)
      let password := substrFrom request (sc + 1)
      let username := eraseChar (eraseChar username 13) 10
      let password := eraseChar (eraseChar password 13) 10
      some (.login username password (to_string clientSocket))
    | _, _ => none
  else if substr request 0 9 = ascii "REGISTER:" then
    let firstColon := strFind request colonChar 9
    let secondColon :=
      strFind request colonChar (match firstColon with | some p => p + 1 | none => 0)
    let thirdColon :=
      strFind request colonChar (match secondColon with | some p => p + 1 | none => 0)
    match firstColon, secondColon, thirdColon with
    | some fc, some sc, some tc =>
      let username := substr request (fc + 1) (sc - fc - 1)
      let password := substr request (sc + 1) (tc - sc - 1)
      let email := substrFrom request (tc + 1)
      let username := eraseChar (eraseChar username 13) 10
      let password := eraseChar (eraseChar password 13) 10
      let email := eraseChar (eraseChar email 13) 10
      some (.register username password email (to_string clientSocket))
    | _, _, _ => none
  else none

/-- The part of the loop body of `NetworkServer::handleClient` that queues the message
and answers the client: the text passed to `sendToClient`. Without a main loop the
message goes to the server's own `std::queue`, whose `push` does not throw. -/
def NetworkServer.requestReply (mainLoop : Option MainLoop) (message : Option Message) :
    List Byte :=
  match message with
  | some m =>
    match mainLoop with
    | some ml =>
      match ml.addMessage (some m) with
      | .ok _ => ascii "Message received and queued for processing."
      | .error _ => ascii "ERROR: Failed to queue message."
    | none => ascii "Message received and queued for processing."
  | none => ascii "ERROR: Unrecognized message format."

/-- The legacy text request `LOGIN:u:p`. -/
def legacyLogin (u p : List Byte) : List Byte := ascii "LOGIN:" ++ u ++ [colonChar] ++ p

/-! ## `WindowsIOCP.cpp`, `LinuxEpoll.cpp`: `removeSocket` -/

/-- The state of `WindowsIOCP` used by `removeSocket`: the flag `initialized_` and the
keys of the map `socketContexts_`. -/
structure WindowsIOCP where
  initialized : Bool
  socketContexts : List Nat
deriving DecidableEq, Repr

/-- `WindowsIOCP::isSocketRegistered`. -/
def WindowsIOCP.isSocketRegistered (b : WindowsIOCP) (socket : Nat) : Bool :=
  b.socketContexts.contains socket

/-- `WindowsIOCP::removeSocket`: the value returned and the backend left. -/
def WindowsIOCP.removeSocket (b : WindowsIOCP) (socket : Nat) : Bool × WindowsIOCP :=
  if !b.initialized then (false, b)
  else (true, { b with socketContexts := b.socketContexts.filter fun s => s != socket })

/-- The state of `LinuxEpoll` used by `removeSocket`: the flag `initialized_`, the keys
of the map `socketContexts_`, and the interest list the kernel keeps for `epollFd_`. -/
structure LinuxEpoll where
  initialized : Bool
  socketContexts : List Nat
  interest : List Nat
deriving DecidableEq, Repr

/-- `LinuxEpoll::isSocketRegistered`. -/
def LinuxEpoll.isSocketRegistered (b : LinuxEpoll) (socket : Nat) : Bool :=
  b.socketContexts.contains socket

/-- `LinuxEpoll::removeSocket`: the value returned and the backend left. The call
`epoll_ctl(epollFd_, EPOLL_CTL_DEL, socket, nullptr)` fails when the descriptor is not in
the interest list. -/
def LinuxEpoll.removeSocket (b : LinuxEpoll) (socket : Nat) : Bool × LinuxEpoll :=
  if !b.initialized then (false, b)
  else if !b.interest.contains socket then (false, b)
  else
    (true, { b with
      interest := b.interest.filter fun s => s != socket
      socketContexts := b.socketContexts.filter fun s => s != socket })

/-! ## `MySQLPool.cpp`: the two background passes -/

/-- `MySQLPool::cleanupIdleConnections`; `idleTooLong` is the outcome of the comparison
`idleTime > connectionMaxIdleTime_`. -/
def MySQLPool.cleanupIdleConnections (p : MySQLPool) (idleTooLong : Bool) : MySQLPool :=
  if idleTooLong && decide (p.currentPoolSize > p.config.minPoolSize) then
    if !p.idleConnections.isEmpty then
      { p with
        idleConnections := p.idleConnections.dropLast
        totalConnections := p.totalConnections - 1
        currentPoolSize := p.currentPoolSize - 1 }
    else p
  else p

/-- One tick of `MySQLPool::cleanupThreadFunc`, after its sleep. -/
def MySQLPool.cleanupTick (p : MySQLPool) (idleTooLong : Bool) : MySQLPool :=
  if p.shutdown then p else p.cleanupIdleConnections idleTooLong

/-- `MySQLPool::replaceUnhealthyConnection(conn)`, where `conn` is the entry at index `i`
of `idleConnections_`. -/
def MySQLPool.replaceUnhealthyConnection (db : Nat → Bool) (p : MySQLPool) (i : Nat) :
    MySQLPool :=
  let p1 : MySQLPool := { p with
    idleConnections := p.idleConnections.set i none
    totalConnections := p.totalConnections - 1
    currentPoolSize := decrementPoolSize p.currentPoolSize }
  if p1.canCreateNewConnection then (p1.createConnection db).2 else p1

/-- The loop `for (auto& conn : idleConnections_)` of `connectionHealthCheck`, from index
`i`, with the number of entries left to visit. The loop takes the two ends of the vector
once, before the first iteration; a `push_back` onto the vector while the loop runs
invalidates them, and the language gives the rest of such a run no meaning: the result is
then `none`. -/
def MySQLPool.healthCheckFrom (db : Nat → Bool) : Nat → Nat → MySQLPool → Option MySQLPool
  | 0, _, p => some p
  | k + 1, i, p =>
    if !MySQLPool.isConnectionHealthy ((p.idleConnections.getD i none)) then
      let p1 := p.replaceUnhealthyConnection db i
      if p1.idleConnections.length = p.idleConnections.length then
        MySQLPool.healthCheckFrom db k (i + 1) p1
      else none
    else MySQLPool.healthCheckFrom db k (i + 1) p

/-- One pass of `MySQLPool::connectionHealthCheck`, after its sleep; `none` when the pass
has no defined outcome. -/
def MySQLPool.healthCheckPass (db : Nat → Bool) (p : MySQLPool) : Option MySQLPool :=
  if p.shutdown then some p
  else MySQLPool.healthCheckFrom db p.idleConnections.length 0 p

/-! ## Clients of the pool -/

/-- A pool together with the connections its clients hold: those handed out by
`acquire()` and not yet given back. -/
structure Client where
  pool : MySQLPool
  held : List MySQLConnection
deriving DecidableEq, Repr

/-- What can happen to a pool between two quiescent points: a call of its public
interface by a client, or one pass of one of its two background threads. `release i
stale` gives back the connection at index `i` of those held (a null pointer when there is
none); `stale` tells that its session has gone away since it was handed out. -/
inductive ClientCall where
  | acquire
  | release (i : Nat) (stale : Bool)
  | setPoolSize (newSize : Int)
  | increasePoolSize (increment : Int)
  | decreasePoolSize (decrement : Int)
  | cleanupTick (idleTooLong : Bool)
  | healthCheck
deriving DecidableEq, Repr

/-- One step of a pool and its clients; `none` when the step has no defined outcome. -/
def Client.step (db : Nat → Bool) (c : Client) : ClientCall → Option Client
  | .acquire =>
    match c.pool.acquire db with
    | (some conn, p1) => some { pool := p1, held := c.held ++ [conn] }
    | (none, p1) => some { pool := p1, held := c.held }
  | .release i stale =>
    match c.held.get? i with
    | none => some { pool := c.pool.release none, held := c.held }
    | some conn =>
      some { pool := c.pool.release (some (if stale then { conn with valid := false } else conn))
             held := c.held.eraseIdx i }
  | .setPoolSize newSize => some { pool := (c.pool.setPoolSize db newSize).2, held := c.held }
  | .increasePoolSize increment =>
    some { pool := (c.pool.increasePoolSize db increment).2, held := c.held }
  | .decreasePoolSize decrement =>
    some { pool := (c.pool.decreasePoolSize db decrement).2, held := c.held }
  | .cleanupTick idleTooLong => some { pool := c.pool.cleanupTick idleTooLong, held := c.held }
  | .healthCheck =>
    match c.pool.healthCheckPass db with
    | some p1 => some { pool := p1, held := c.held }
    | none => none

/-- A sequence of steps, in order. -/
def Client.run (db : Nat → Bool) : Client → List ClientCall → Option Client
  | c, [] => some c
  | c, call :: rest =>
    match c.step db call with
    | some c1 => Client.run db c1 rest
    | none => none

/-! ## Handlers and inputs used in examples -/

/-- A handler that sends nothing and throws an exception derived from `std::exception`
(as `throw std::runtime_error("...")` does). -/
def throwingHandler : MessageHandler := fun _ => { responses := [], thrown := some .stdException }

/-- A handler that sends nothing and throws an object that is not derived from
`std::exception` (as `throw 1` does). -/
def rudeHandler : MessageHandler := fun _ => { responses := [], thrown := some .other }

/-- A main loop whose queue holds one `CUSTOM` message from client 7 followed by one
`LOGIN` message of the same client. -/
def twoQueued : MainLoop :=
  { messageQueue :=
      { queue := [.generic .CUSTOM (ascii "hi") (ascii "7"),
                  .login (ascii "alice") (ascii "secret") (ascii "7")]
        shutdown := false } }

/-! ## Lemmas on the byte-level arithmetic -/

@[simp] theorem toByte_val (n : Nat) : (toByte n).val = n % 256 := rfl

@[simp] theorem toU32_val (n : Nat) : (toU32 n).val = n % 4294967296 := rfl

theorem and_255 (x : Nat) : x &&& 0xFF = x % 256 := by
  have h := Nat.and_pow_two_sub_one_eq_mod x 8
  norm_num at h
  exact h

theorem or_eq_add_bytes (a b c d : Nat) (hb : b < 256) (hc : c < 256) (hd : d < 256) :
    (a * 16777216 ||| b * 65536 ||| c * 256 ||| d) = a * 16777216 + b * 65536 + c * 256 + d := by
  have h1 : 2 ^ 24 * a + b * 65536 = 2 ^ 24 * a ||| b * 65536 :=
    Nat.mul_add_lt_is_or (by omega) a
  have h2 : 2 ^ 16 * (a * 256 + b) + c * 256 = 2 ^ 16 * (a * 256 + b) ||| c * 256 :=
    Nat.mul_add_lt_is_or (by omega) _
  have h3 : 2 ^ 8 * (a * 65536 + b * 256 + c) + d = 2 ^ 8 * (a * 65536 + b * 256 + c) ||| d :=
    Nat.mul_add_lt_is_or (by omega) _
  have e1 : a * 16777216 = 2 ^ 24 * a := by omega
  have e2 : a * 16777216 + b * 65536 = 2 ^ 16 * (a * 256 + b) := by omega
  have e3 : a * 16777216 + b * 65536 + c * 256 = 2 ^ 8 * (a * 65536 + b * 256 + c) := by omega
  rw [e1, ← h1, ← e1, e2, ← h2, ← e2, e3, ← h3, ← e3]

theorem packU32_val (a b c d : Byte) :
    (packU32 a b c d).val = a.val * 16777216 + b.val * 65536 + c.val * 256 + d.val := by
  have ha := a.isLt
  have hb := b.isLt
  have hc := c.isLt
  have hd := d.isLt
  have s1 : a.val <<< 24 % 4294967296 = a.val * 16777216 := by
    rw [Nat.shiftLeft_eq]; omega
  have s2 : b.val <<< 16 % 4294967296 = b.val * 65536 := by
    rw [Nat.shiftLeft_eq]; omega
  have s3 : c.val <<< 8 % 4294967296 = c.val * 256 := by
    rw [Nat.shiftLeft_eq]; omega
  simp only [packU32, toU32_val, s1, s2, s3]
  rw [or_eq_add_bytes _ _ _ _ hb hc hd]
  omega

theorem toByte_and (n : Nat) : toByte (n &&& 0xFF) = toByte n := by
  apply Fin.ext
  simp only [toByte_val, and_255, Nat.mod_mod]

theorem headerSerialize_eq (h : MessageHeader) :
    h.serialize = beBytes h.messageId.val ++ beBytes h.dataLength.val := by
  simp only [MessageHeader.serialize, beBytes, toByte_and, Nat.shiftRight_eq_div_pow]
  norm_num

theorem packU32_beBytes (n : U32) :
    packU32 (toByte (n.val / 16777216)) (toByte (n.val / 65536)) (toByte (n.val / 256))
      (toByte n.val) = n := by
  apply Fin.ext
  rw [packU32_val]
  have hn := n.isLt
  simp only [toByte_val]
  omega

theorem beBytes_packU32 (a b c d : Byte) : beBytes (packU32 a b c d).val = [a, b, c, d] := by
  have ha := a.isLt
  have hb := b.isLt
  have hc := c.isLt
  have hd := d.isLt
  simp only [beBytes, packU32_val]
  have e1 : toByte ((a.val * 16777216 + b.val * 65536 + c.val * 256 + d.val) / 16777216) = a := by
    apply Fin.ext; simp only [toByte_val]; omega
  have e2 : toByte ((a.val * 16777216 + b.val * 65536 + c.val * 256 + d.val) / 65536) = b := by
    apply Fin.ext; simp only [toByte_val]; omega
  have e3 : toByte ((a.val * 16777216 + b.val * 65536 + c.val * 256 + d.val) / 256) = c := by
    apply Fin.ext; simp only [toByte_val]; omega
  have e4 : toByte (a.val * 16777216 + b.val * 65536 + c.val * 256 + d.val) = d := by
    apply Fin.ext; simp only [toByte_val]; omega
  rw [e1, e2, e3, e4]

/-- A buffer of at least eight bytes starts with eight bytes. -/
theorem exists_eight (b : List Byte) (h : 8 ≤ b.length) :
    ∃ b0 b1 b2 b3 b4 b5 b6 b7 rest, b = b0 :: b1 :: b2 :: b3 :: b4 :: b5 :: b6 :: b7 :: rest := by
  match b, h with
  | b0 :: b1 :: b2 :: b3 :: b4 :: b5 :: b6 :: b7 :: rest, _ =>
    exact ⟨b0, b1, b2, b3, b4, b5, b6, b7, rest, rfl⟩

theorem headerDeserialize_cons (b0 b1 b2 b3 b4 b5 b6 b7 : Byte) (rest : List Byte) :
    MessageHeader.deserialize (b0 :: b1 :: b2 :: b3 :: b4 :: b5 :: b6 :: b7 :: rest)
      = some { messageId := packU32 b0 b1 b2 b3, dataLength := packU32 b4 b5 b6 b7 } := by
  simp [MessageHeader.deserialize]

theorem sizeMod_small (n : U32) : (headerSize + n.val) % sizeMod = 8 + n.val := by
  have hn := n.isLt
  simp only [headerSize, sizeMod]
  omega

theorem messageDeserialize_cons (b0 b1 b2 b3 b4 b5 b6 b7 : Byte) (rest : List Byte) :
    NetworkMessage.deserialize (b0 :: b1 :: b2 :: b3 :: b4 :: b5 :: b6 :: b7 :: rest)
      = if rest.length < (packU32 b4 b5 b6 b7).val then none
        else some { header := { messageId := packU32 b0 b1 b2 b3, dataLength := packU32 b4 b5 b6 b7 }
                    body := rest.take (packU32 b4 b5 b6 b7).val } := by
  have hlen : (b0 :: b1 :: b2 :: b3 :: b4 :: b5 :: b6 :: b7 :: rest).length = 8 + rest.length := by
    simp only [List.length_cons]; omega
  have hdrop : (b0 :: b1 :: b2 :: b3 :: b4 :: b5 :: b6 :: b7 :: rest).drop headerSize = rest := rfl
  simp only [NetworkMessage.deserialize, headerDeserialize_cons, sizeMod_small, hlen,
    hdrop]
  by_cases h : rest.length < (packU32 b4 b5 b6 b7).val
  · have h2 : 8 + rest.length < 8 + (packU32 b4 b5 b6 b7).val := by omega
    simp only [h, h2, if_true]
  · have h2 : ¬ 8 + rest.length < 8 + (packU32 b4 b5 b6 b7).val := by omega
    simp only [h, h2, if_false]
    by_cases h3 : (packU32 b4 b5 b6 b7).val > 0
    · simp only [h3, if_true]
    · have h4 : (packU32 b4 b5 b6 b7).val = 0 := by omega
      simp [h4]

theorem parseMessage_cons (b0 b1 b2 b3 b4 b5 b6 b7 : Byte) (rest : List Byte) :
    MessageParser.parseMessage (b0 :: b1 :: b2 :: b3 :: b4 :: b5 :: b6 :: b7 :: rest)
      = if rest.length < (packU32 b4 b5 b6 b7).val then none
        else some { header := { messageId := packU32 b0 b1 b2 b3, dataLength := packU32 b4 b5 b6 b7 }
                    body := rest.take (packU32 b4 b5 b6 b7).val } := by
  simp only [MessageParser.parseMessage, messageDeserialize_cons]
  have h : ¬ (b0 :: b1 :: b2 :: b3 :: b4 :: b5 :: b6 :: b7 :: rest).length < headerSize := by
    simp [headerSize]
  simp only [h, if_false]
  split <;> simp_all

theorem isCompleteMessage_cons (b0 b1 b2 b3 b4 b5 b6 b7 : Byte)
    (rest : List Byte) :
    MessageParser.isCompleteMessage (b0 :: b1 :: b2 :: b3 :: b4 :: b5 :: b6 :: b7 :: rest)
      = decide ((packU32 b4 b5 b6 b7).val ≤ rest.length) := by
  simp only [MessageParser.isCompleteMessage, headerDeserialize_cons, sizeMod_small]
  have h : ¬ (b0 :: b1 :: b2 :: b3 :: b4 :: b5 :: b6 :: b7 :: rest).length < headerSize := by
    simp [headerSize]
  simp only [h, if_false]
  simp
  omega

theorem short_incomplete (b : List Byte) (h : b.length < 8) :
    MessageParser.isCompleteMessage b = false ∧ MessageParser.parseMessage b = none := by
  simp [MessageParser.isCompleteMessage, MessageParser.parseMessage, headerSize, h]

theorem beValue_cons_zero (b0 b1 b2 b3 : Byte) (rest : List Byte) :
    beValue (b0 :: b1 :: b2 :: b3 :: rest) 0 = (packU32 b0 b1 b2 b3).val := by
  simp [beValue, packU32_val]

theorem beValue_cons_four (b0 b1 b2 b3 b4 b5 b6 b7 : Byte) (rest : List Byte) :
    beValue (b0 :: b1 :: b2 :: b3 :: b4 :: b5 :: b6 :: b7 :: rest) 4
      = (packU32 b4 b5 b6 b7).val := by
  simp [beValue, packU32_val]

theorem messageSerialize_eq (m : NetworkMessage) :
    m.serialize = m.header.serialize ++ m.body := by
  cases hb : m.body with
  | nil => simp [NetworkMessage.serialize, hb]
  | cons x xs => simp [NetworkMessage.serialize, hb]

theorem serialize_new (messageId : U32) (body : List Byte) :
    (NetworkMessage.new messageId body).serialize
      = beBytes messageId.val ++ beBytes (body.length % 4294967296) ++ body := by
  rw [messageSerialize_eq, headerSerialize_eq]
  rfl

theorem new_dataLength (messageId : U32) (body : List Byte) :
    (NetworkMessage.new messageId body).header.dataLength.val = body.length % 4294967296 :=
  rfl

theorem serialize_new_length (messageId : U32) (body : List Byte) :
    (NetworkMessage.new messageId body).serialize.length = 8 + body.length := by
  rw [serialize_new]
  simp only [beBytes, List.length_append, List.length_cons, List.length_nil]

/-- What the parser returns on a serialized message, for a body of any length: the body
is cut to the length that fits the `uint32_t` length field. -/
theorem parseMessage_serialize_new (messageId : U32) (body : List Byte) :
    MessageParser.parseMessage (NetworkMessage.new messageId body).serialize
      = some { header := { messageId := messageId, dataLength := toU32 body.length }
               body := body.take (body.length % 4294967296) } := by
  rw [serialize_new]
  simp only [beBytes, List.cons_append, List.nil_append]
  rw [parseMessage_cons, packU32_beBytes]
  have e : packU32 (toByte (body.length % 4294967296 / 16777216))
      (toByte (body.length % 4294967296 / 65536)) (toByte (body.length % 4294967296 / 256))
      (toByte (body.length % 4294967296)) = toU32 body.length := packU32_beBytes (toU32 body.length)
  rw [e]
  have hlt : ¬ body.length < body.length % 4294967296 := by
    have := Nat.mod_le body.length 4294967296
    omega
  simp only [toU32_val, hlt, if_false]

theorem oversizedBody_length : oversizedBody.length = 4294967296 := by
  simp only [oversizedBody, List.length_replicate]

/-! ## The wire codec: round trip, completeness, header, layout, parsing -/

/-- C1, as stated, fails: for message id 7 and the body of `2 ^ 32` zero bytes,
`parseMessage` applied to the serialized message does not return a message with that
body (the length field wraps to 0 and the body comes back empty). -/
theorem roundtrip_fails_on_oversized_body :
    ¬ ∃ m, MessageParser.parseMessage (NetworkMessage.new 7 oversizedBody).serialize = some m
        ∧ m.header.messageId = 7 ∧ m.body = oversizedBody := by
  rintro ⟨m, hm, -, hbody⟩
  rw [parseMessage_serialize_new, oversizedBody_length] at hm
  have hm2 := (Option.some.inj hm).symm
  have hb : m.body = [] := by
    rw [hm2]
    simp only [Nat.mod_self, List.take_zero]
  have hl := congrArg List.length hbody
  rw [hb, oversizedBody_length] at hl
  simp at hl

/-- C1, amended: for every message id and every body shorter than `2 ^ 32` bytes,
`parseMessage` applied to `NetworkMessage(messageId, body).serialize()` returns a message
whose header id is `messageId` and whose body is `body`; it is the message that was
serialized. -/
theorem parse_serialize_roundtrip (messageId : U32) (body : List Byte)
    (hlen : body.length < 4294967296) :
    ∃ m, MessageParser.parseMessage (NetworkMessage.new messageId body).serialize = some m
      ∧ m.header.messageId = messageId ∧ m.body = body
      ∧ m = NetworkMessage.new messageId body := by
  refine ⟨NetworkMessage.new messageId body, ?_, rfl, rfl, rfl⟩
  rw [parseMessage_serialize_new, Nat.mod_eq_of_lt hlen, List.take_length]
  rfl

theorem parse_serialize_roundtrip_witness :
    ∃ m, MessageParser.parseMessage (NetworkMessage.new 1001 [97, 124, 98]).serialize = some m
      ∧ m.header.messageId = 1001 ∧ m.body = [97, 124, 98]
      ∧ m = NetworkMessage.new 1001 [97, 124, 98] :=
  parse_serialize_roundtrip 1001 [97, 124, 98] (by decide)

/-- C2: `isCompleteMessage b` is true exactly when `b` has at least 8 bytes and at least
`8 + L` bytes, `L` being the big-endian value of bytes 4..7; so it is false below 8 bytes
and true at exactly `8 + L` bytes. -/
theorem isCompleteMessage_iff (b : List Byte) :
    (MessageParser.isCompleteMessage b = true ↔ 8 ≤ b.length ∧ 8 + beValue b 4 ≤ b.length)
      ∧ (b.length < 8 → MessageParser.isCompleteMessage b = false)
      ∧ (b.length = 8 + beValue b 4 → MessageParser.isCompleteMessage b = true) := by
  have key : MessageParser.isCompleteMessage b = true
      ↔ 8 ≤ b.length ∧ 8 + beValue b 4 ≤ b.length := by
    by_cases h : 8 ≤ b.length
    · obtain ⟨b0, b1, b2, b3, b4, b5, b6, b7, rest, rfl⟩ := exists_eight b h
      rw [isCompleteMessage_cons, beValue_cons_four]
      simp only [List.length_cons, decide_eq_true_eq]
      omega
    · have h2 := (short_incomplete b (by omega)).1
      simp [h2, h]
  refine ⟨key, fun h => (short_incomplete b h).1, fun h => key.2 (by omega)⟩

theorem isCompleteMessage_iff_witness :
    (MessageParser.isCompleteMessage [0, 0, 3, 233, 0, 0, 0, 1, 65] = true
        ↔ 8 ≤ [0, 0, 3, 233, 0, 0, 0, 1, (65 : Byte)].length
          ∧ 8 + beValue [0, 0, 3, 233, 0, 0, 0, 1, 65] 4
            ≤ [0, 0, 3, 233, 0, 0, 0, 1, (65 : Byte)].length)
      ∧ ([0, 0, 3, 233, 0, 0, 0, 1, (65 : Byte)].length < 8 →
          MessageParser.isCompleteMessage [0, 0, 3, 233, 0, 0, 0, 1, 65] = false)
      ∧ ([0, 0, 3, 233, 0, 0, 0, 1, (65 : Byte)].length
            = 8 + beValue [0, 0, 3, 233, 0, 0, 0, 1, 65] 4 →
          MessageParser.isCompleteMessage [0, 0, 3, 233, 0, 0, 0, 1, 65] = true) :=
  isCompleteMessage_iff [0, 0, 3, 233, 0, 0, 0, 1, 65]

/-- C3: `MessageHeader::deserialize` fails exactly on inputs shorter than 8 bytes,
whatever the length field says; on success the two fields are the big-endian values of
bytes 0..3 and 4..7; a serialized header, with anything after it, deserializes to the
header it came from; and an 8-byte input is the serialization of what it deserializes
to. -/
theorem headerDeserialize_spec :
    (∀ data : List Byte, MessageHeader.deserialize data = none ↔ data.length < 8)
      ∧ (∀ (data : List Byte) (h : MessageHeader), MessageHeader.deserialize data = some h →
          h.messageId.val = beValue data 0 ∧ h.dataLength.val = beValue data 4)
      ∧ (∀ (h : MessageHeader) (rest : List Byte),
          MessageHeader.deserialize (h.serialize ++ rest) = some h)
      ∧ (∀ h : MessageHeader, MessageHeader.deserialize h.serialize = some h)
      ∧ (∀ b : List Byte, b.length = 8 →
          ∃ h, MessageHeader.deserialize b = some h ∧ h.serialize = b) := by
  have hser : ∀ (h : MessageHeader) (rest : List Byte),
      MessageHeader.deserialize (h.serialize ++ rest) = some h := by
    intro h rest
    rw [headerSerialize_eq]
    simp only [beBytes, List.cons_append, List.nil_append]
    rw [headerDeserialize_cons, packU32_beBytes, packU32_beBytes]
  refine ⟨?_, ?_, hser, ?_, ?_⟩
  · intro data
    by_cases h : data.length < 8 <;> simp [MessageHeader.deserialize, h]
  · intro data h hd
    have h8 : 8 ≤ data.length := by
      by_contra hc
      simp [MessageHeader.deserialize, Nat.lt_of_not_le hc] at hd
    obtain ⟨b0, b1, b2, b3, b4, b5, b6, b7, rest, rfl⟩ := exists_eight data h8
    rw [headerDeserialize_cons] at hd
    have hd2 := (Option.some.inj hd).symm
    rw [hd2, beValue_cons_zero, beValue_cons_four]
    exact ⟨rfl, rfl⟩
  · intro h
    have := hser h []
    rwa [List.append_nil] at this
  · intro b hb
    obtain ⟨b0, b1, b2, b3, b4, b5, b6, b7, rest, rfl⟩ := exists_eight b (by omega)
    have hrest : rest = [] := by
      simp only [List.length_cons] at hb
      exact List.eq_nil_of_length_eq_zero (by omega)
    subst hrest
    refine ⟨_, headerDeserialize_cons _ _ _ _ _ _ _ _ [], ?_⟩
    rw [headerSerialize_eq, beBytes_packU32, beBytes_packU32]
    rfl

/-- C4, as stated, fails: the message built from id 7 and the body of `2 ^ 32` zero
bytes serializes to `8 + 2 ^ 32` bytes, which is not `8 + dataLength` (`dataLength`
is 0 there). -/
theorem serialize_length_fails_on_oversized_body :
    (NetworkMessage.new 7 oversizedBody).serialize.length
      ≠ 8 + (NetworkMessage.new 7 oversizedBody).header.dataLength.val := by
  rw [serialize_new_length, new_dataLength,
    oversizedBody_length, Nat.mod_self]
  omega

/-- C4, amended: for every message built by the constructor from a message id and a body
shorter than `2 ^ 32` bytes, `serialize()` is the 4 big-endian bytes of the id, the 4
big-endian bytes of `dataLength`, then the body; `dataLength` is the body length and the
total length is `8 + dataLength`, which is `getTotalSize()`. -/
theorem serialize_layout (messageId : U32) (body : List Byte)
    (hlen : body.length < 4294967296) :
    (NetworkMessage.new messageId body).serialize
        = beBytes messageId.val ++ beBytes (NetworkMessage.new messageId body).header.dataLength.val
            ++ body
      ∧ (NetworkMessage.new messageId body).header.dataLength.val = body.length
      ∧ (NetworkMessage.new messageId body).serialize.length
          = 8 + (NetworkMessage.new messageId body).header.dataLength.val
      ∧ (NetworkMessage.new messageId body).serialize.length
          = (NetworkMessage.new messageId body).getTotalSize := by
  have hd : (NetworkMessage.new messageId body).header.dataLength.val = body.length := by
    simp only [NetworkMessage.new, toU32_val]
    exact Nat.mod_eq_of_lt hlen
  refine ⟨?_, hd, ?_, ?_⟩
  · rw [serialize_new, hd, Nat.mod_eq_of_lt hlen]
  · rw [serialize_new_length, hd]
  · rw [serialize_new_length, NetworkMessage.getTotalSize, sizeMod_small, hd]

theorem serialize_layout_witness :
    (NetworkMessage.new 1001 [97, 124, 98]).serialize
        = beBytes (1001 : U32).val
            ++ beBytes (NetworkMessage.new 1001 [97, 124, 98]).header.dataLength.val
            ++ [97, 124, 98]
      ∧ (NetworkMessage.new 1001 [97, 124, 98]).header.dataLength.val
          = [97, 124, (98 : Byte)].length
      ∧ (NetworkMessage.new 1001 [97, 124, 98]).serialize.length
          = 8 + (NetworkMessage.new 1001 [97, 124, 98]).header.dataLength.val
      ∧ (NetworkMessage.new 1001 [97, 124, 98]).serialize.length
          = (NetworkMessage.new 1001 [97, 124, 98]).getTotalSize :=
  serialize_layout 1001 [97, 124, 98] (by decide)

/-- C5: `parseMessage b` returns a message exactly when `isCompleteMessage b` holds; the
message then carries the header fields read from bytes 0..7 and, as body, the bytes
`[8, 8 + dataLength)` of `b`; every buffer that agrees with `b` on those first
`8 + dataLength` bytes, whatever follows them, parses to the same message. The function
only reads its argument. -/
theorem parseMessage_spec (b : List Byte) :
    ((MessageParser.parseMessage b).isSome = MessageParser.isCompleteMessage b)
      ∧ (∀ m, MessageParser.parseMessage b = some m →
          m.header.messageId.val = beValue b 0
          ∧ m.header.dataLength.val = beValue b 4
          ∧ m.body = (b.drop 8).take (beValue b 4)
          ∧ m.body.length = beValue b 4
          ∧ (∀ extra, MessageParser.parseMessage (b ++ extra) = some m)
          ∧ (∀ b1 : List Byte, b1.take (8 + beValue b 4) = b.take (8 + beValue b 4) →
              MessageParser.parseMessage b1 = some m)) := by
  by_cases h8 : 8 ≤ b.length
  · obtain ⟨b0, b1, b2, b3, b4, b5, b6, b7, rest, rfl⟩ := exists_eight b h8
    rw [parseMessage_cons, isCompleteMessage_cons,
      beValue_cons_zero, beValue_cons_four]
    by_cases hc : rest.length < (packU32 b4 b5 b6 b7).val
    · have hd : ¬ (packU32 b4 b5 b6 b7).val ≤ rest.length := by omega
      simp [hc, hd]
    · have hd : (packU32 b4 b5 b6 b7).val ≤ rest.length := by omega
      simp only [hc, if_false, Option.isSome_some, hd, decide_True, true_and]
      intro m hm
      have hm2 := (Option.some.inj hm).symm
      subst hm2
      refine ⟨rfl, rfl, rfl, ?_, ?_, ?_⟩
      · simp only [List.length_take]; omega
      · intro extra
        simp only [List.cons_append]
        rw [parseMessage_cons]
        have hc2 : ¬ (rest ++ extra).length < (packU32 b4 b5 b6 b7).val := by
          simp only [List.length_append]; omega
        simp only [hc2, if_false]
        rw [List.take_append_of_le_length hd]
      · intro c hcb
        have hcl : 8 + (packU32 b4 b5 b6 b7).val ≤ c.length := by
          have := congrArg List.length hcb
          simp only [List.length_take, List.length_cons] at this
          omega
        obtain ⟨c0, c1, c2, c3, c4, c5, c6, c7, crest, rfl⟩ := exists_eight c (by omega)
        have e : 8 + (packU32 b4 b5 b6 b7).val = (packU32 b4 b5 b6 b7).val + 1 + 1 + 1 + 1
            + 1 + 1 + 1 + 1 := by omega
        rw [e] at hcb
        simp only [List.take_succ_cons, List.cons.injEq] at hcb
        obtain ⟨rfl, rfl, rfl, rfl, rfl, rfl, rfl, rfl, htake⟩ := hcb
        rw [parseMessage_cons]
        have hc2 : ¬ crest.length < (packU32 c4 c5 c6 c7).val := by
          simp only [List.length_cons] at hcl; omega
        simp only [hc2, if_false, htake]
  · have hs := short_incomplete b (by omega)
    simp [hs.1, hs.2]

/-! ## Lemmas on the parsing loop of `onReadEvent` -/

theorem handOff_open (ml : MainLoop) (h : ml.messageQueue.shutdown = false)
    (m : NetworkMessage) (socket : Nat) :
    handOff (some ml) m socket
      = .ok (some (ml.withQueued [convertNetworkMessageToMessage m (socket % 2 ^ 64)])) := by
  simp [handOff, MainLoop.addMessage, MessageQueue.push, h, MainLoop.withQueued]

theorem withQueued_shutdown (ml : MainLoop) (ms : List Message) :
    (ml.withQueued ms).messageQueue.shutdown = ml.messageQueue.shutdown := rfl

theorem withQueued_append (ml : MainLoop) (xs ys : List Message) :
    (ml.withQueued xs).withQueued ys = ml.withQueued (xs ++ ys) := by
  simp [MainLoop.withQueued]

theorem withQueued_nil (ml : MainLoop) : ml.withQueued [] = ml := by
  cases ml with
  | mk q => cases q; simp [MainLoop.withQueued]

theorem frame_bytes_eq (f : Frame) :
    f.bytes = beBytes f.1.val ++ beBytes (f.2.length % 4294967296) ++ f.2 :=
  serialize_new f.1 f.2

theorem frame_bytes_length (f : Frame) : f.bytes.length = 8 + f.2.length :=
  serialize_new_length f.1 f.2

theorem parseMessage_append (b extra : List Byte) (m : NetworkMessage)
    (h : MessageParser.parseMessage b = some m) :
    MessageParser.parseMessage (b ++ extra) = some m := by
  by_cases h8 : 8 ≤ b.length
  · obtain ⟨b0, b1, b2, b3, b4, b5, b6, b7, rest, rfl⟩ := exists_eight b h8
    rw [parseMessage_cons] at h
    simp only [List.cons_append]
    rw [parseMessage_cons]
    by_cases hc : rest.length < (packU32 b4 b5 b6 b7).val
    · simp [hc] at h
    · have hc2 : ¬ (rest ++ extra).length < (packU32 b4 b5 b6 b7).val := by
        simp only [List.length_append]; omega
      simp only [hc, if_false] at h
      simp only [hc2, if_false]
      rw [List.take_append_of_le_length (by omega)]
      exact h
  · rw [(short_incomplete b (by omega)).2] at h
    cases h

theorem parseMessage_frame_append (f : Frame) (hf : f.2.length < 4294967296)
    (extra : List Byte) :
    MessageParser.parseMessage (f.bytes ++ extra) = some (NetworkMessage.new f.1 f.2) := by
  apply parseMessage_append
  rw [Frame.bytes, parseMessage_serialize_new, Nat.mod_eq_of_lt hf, List.take_length]
  rfl

theorem parse_isSome_eq_complete (b : List Byte) :
    (MessageParser.parseMessage b).isSome = MessageParser.isCompleteMessage b := by
  by_cases h8 : 8 ≤ b.length
  · obtain ⟨b0, b1, b2, b3, b4, b5, b6, b7, rest, rfl⟩ := exists_eight b h8
    rw [parseMessage_cons, isCompleteMessage_cons]
    by_cases hc : rest.length < (packU32 b4 b5 b6 b7).val
    · have hd : ¬ (packU32 b4 b5 b6 b7).val ≤ rest.length := by omega
      simp [hc, hd]
    · have hd : (packU32 b4 b5 b6 b7).val ≤ rest.length := by omega
      simp [hc, hd]
  · have hs := short_incomplete b (by omega)
    simp [hs.1, hs.2]

theorem isComplete_frame_append (f : Frame) (hf : f.2.length < 4294967296)
    (extra : List Byte) : MessageParser.isCompleteMessage (f.bytes ++ extra) = true := by
  rw [← parse_isSome_eq_complete, parseMessage_frame_append f hf]
  rfl

theorem getTotalSize_new (f : Frame) (hf : f.2.length < 4294967296) :
    (NetworkMessage.new f.1 f.2).getTotalSize = f.bytes.length := by
  rw [NetworkMessage.getTotalSize, sizeMod_small, new_dataLength, Nat.mod_eq_of_lt hf,
    frame_bytes_length]

theorem getTotalSize_ge (m : NetworkMessage) : 8 ≤ m.getTotalSize := by
  rw [NetworkMessage.getTotalSize, sizeMod_small]
  omega

/-- The loop run on a pending, incomplete buffer stops at once. -/
theorem parseLoop_incomplete (socket fuel : Nat) (q : List Byte) (ml : Option MainLoop)
    (hq : MessageParser.isCompleteMessage q = false) :
    parseLoop socket fuel q ml = { buffer := q, mainLoop := ml, threw := false } := by
  cases fuel with
  | zero => rfl
  | succ n =>
    simp only [parseLoop, hq]
    split <;> rfl

/-- The loop run on whole frames followed by an incomplete rest hands over the messages
of the frames in order and leaves the rest. -/
theorem parseLoop_stream (socket : Nat) (q : List Byte)
    (hq : MessageParser.isCompleteMessage q = false) :
    ∀ (fs : List Frame) (ml : MainLoop) (fuel : Nat),
      ml.messageQueue.shutdown = false →
      (∀ f ∈ fs, f.2.length < 4294967296) →
      (stream fs ++ q).length ≤ fuel →
      parseLoop socket fuel (stream fs ++ q) (some ml)
        = { buffer := q, mainLoop := some (ml.withQueued (fs.map (decode socket))),
            threw := false } := by
  intro fs
  induction fs with
  | nil =>
    intro ml fuel _ _ _
    simp only [stream, List.map_nil, List.flatten_nil, List.nil_append, withQueued_nil]
    exact parseLoop_incomplete socket fuel q (some ml) hq
  | cons f fs ih =>
    intro ml fuel hopen hfs hfuel
    have hf : f.2.length < 4294967296 := hfs f (List.mem_cons_self _ _)
    have hst : stream (f :: fs) ++ q = f.bytes ++ (stream fs ++ q) := by
      simp only [stream, List.map_cons, List.flatten_cons, List.append_assoc]
    rw [hst] at hfuel ⊢
    have hlen : (f.bytes ++ (stream fs ++ q)).length
        = 8 + f.2.length + (stream fs ++ q).length := by
      rw [List.length_append, frame_bytes_length]
    cases fuel with
    | zero => omega
    | succ n =>
      have h8 : (f.bytes ++ (stream fs ++ q)).length ≥ headerSize := by
        rw [hlen, headerSize]; omega
      have hsize : (NetworkMessage.new f.1 f.2).getTotalSize
          ≤ (f.bytes ++ (stream fs ++ q)).length := by
        rw [getTotalSize_new f hf, List.length_append]; omega
      have hdrop : (f.bytes ++ (stream fs ++ q)).drop (NetworkMessage.new f.1 f.2).getTotalSize
          = stream fs ++ q := by
        rw [getTotalSize_new f hf, List.drop_left]
      rw [parseLoop]
      simp only [h8, if_true, isComplete_frame_append f hf, parseMessage_frame_append f hf,
        handOff_open ml hopen, hsize, hdrop, Bool.not_true, Bool.false_eq_true, if_false]
      rw [ih (ml.withQueued [convertNetworkMessageToMessage (NetworkMessage.new f.1 f.2)
        (socket % 2 ^ 64)]) n (by rw [withQueued_shutdown]; exact hopen)
        (fun g hg => hfs g (List.mem_cons_of_mem _ hg)) (by rw [hlen] at hfuel; omega)]
      rw [withQueued_append]
      rfl

/-- What the loop leaves behind, when it ends without an exception and was given enough
iterations, is never a complete message. -/
theorem parseLoop_leaves_incomplete (socket : Nat) :
    ∀ (fuel : Nat) (buffer : List Byte) (ml : Option MainLoop),
      buffer.length ≤ fuel →
      (parseLoop socket fuel buffer ml).threw = false →
      MessageParser.isCompleteMessage (parseLoop socket fuel buffer ml).buffer = false := by
  intro fuel
  induction fuel with
  | zero =>
    intro buffer ml hlen _
    have hnil : buffer = [] := List.eq_nil_of_length_eq_zero (by omega)
    subst hnil
    rfl
  | succ n ih =>
    intro buffer ml hlen hthrew
    rw [parseLoop] at hthrew ⊢
    by_cases h8 : buffer.length ≥ headerSize
    · simp only [h8, if_true] at hthrew ⊢
      cases hc : MessageParser.isCompleteMessage buffer with
      | false => simp [hc]
      | true =>
        simp only [hc, Bool.not_true, Bool.false_eq_true, if_false] at hthrew ⊢
        cases hp : MessageParser.parseMessage buffer with
        | none => simp only []; rfl
        | some message =>
          simp only [hp] at hthrew ⊢
          cases hh : handOff ml message socket with
          | error e => simp [hh] at hthrew
          | ok ml1 =>
            simp only [hh] at hthrew ⊢
            by_cases hs : message.getTotalSize ≤ buffer.length
            · simp only [hs, if_true] at hthrew ⊢
              have hge := getTotalSize_ge message
              exact ih _ _ (by simp only [List.length_drop]; omega) hthrew
            · simp only [hs, if_false]
              rfl
    · simp only [h8, if_false]
      exact (short_incomplete buffer (by rw [headerSize] at h8; omega)).1

/-- A strict initial part of a serialized frame is not a complete message. -/
theorem proper_part_incomplete (f : Frame) (hf : f.2.length < 4294967296)
    (q missing : List Byte) (hq : q ++ missing = f.bytes) (hm : missing ≠ []) :
    MessageParser.isCompleteMessage q = false := by
  by_cases h8 : 8 ≤ q.length
  · obtain ⟨b0, b1, b2, b3, b4, b5, b6, b7, rest, rfl⟩ := exists_eight q h8
    rw [frame_bytes_eq] at hq
    simp only [beBytes, List.cons_append, List.nil_append, List.cons.injEq] at hq
    obtain ⟨rfl, rfl, rfl, rfl, rfl, rfl, rfl, rfl, hbody⟩ := hq
    rw [isCompleteMessage_cons]
    have e : packU32 (toByte (f.2.length % 4294967296 / 16777216))
        (toByte (f.2.length % 4294967296 / 65536)) (toByte (f.2.length % 4294967296 / 256))
        (toByte (f.2.length % 4294967296)) = toU32 f.2.length := packU32_beBytes (toU32 f.2.length)
    rw [e, toU32_val, Nat.mod_eq_of_lt hf]
    have hl := congrArg List.length hbody
    rw [List.length_append] at hl
    have hpos : 0 < missing.length := List.length_pos.mpr hm
    simp only [decide_eq_false_iff_not]
    omega
  · exact (short_incomplete q (by omega)).1

theorem proper_part_length (f : Frame) (q missing : List Byte)
    (hq : q ++ missing = f.bytes) (hm : missing ≠ []) : q.length < f.size := by
  have hl := congrArg List.length hq
  rw [List.length_append, frame_bytes_length] at hl
  have hpos : 0 < missing.length := List.length_pos.mpr hm
  rw [Frame.size, headerSize]
  omega

/-- A received buffer followed by the bytes still to come, cut along the frames: the
buffer holds some whole frames and then a strict initial part of the next one (or part
of what follows the frames). -/
theorem split_stream (rest : List Byte) :
    ∀ (fs : List Frame) (b tail : List Byte), b ++ tail = stream fs ++ rest →
      ∃ fs1 fs2 q, fs = fs1 ++ fs2 ∧ b = stream fs1 ++ q ∧ q ++ tail = stream fs2 ++ rest
        ∧ (∀ f fs3, fs2 = f :: fs3 → q.length < f.bytes.length) := by
  intro fs
  induction fs with
  | nil =>
    intro b tail h
    refine ⟨[], [], b, rfl, ?_, h, ?_⟩
    · simp [stream]
    · intro f fs3 hc
      cases hc
  | cons f fs ih =>
    intro b tail h
    by_cases hlt : b.length < f.bytes.length
    · refine ⟨[], f :: fs, b, rfl, ?_, h, ?_⟩
      · simp [stream]
      · intro g fs3 hc
        cases hc
        exact hlt
    · have hst : stream (f :: fs) ++ rest = f.bytes ++ (stream fs ++ rest) := by
        simp only [stream, List.map_cons, List.flatten_cons, List.append_assoc]
      rw [hst] at h
      have hb : ∃ b1, b = f.bytes ++ b1 ∧ b1 ++ tail = stream fs ++ rest := by
        rcases List.append_eq_append_iff.mp h with ⟨a, ha, hb⟩ | ⟨c, hc, hd⟩
        · have hl := congrArg List.length ha
          rw [List.length_append] at hl
          have ha0 : a = [] := List.eq_nil_of_length_eq_zero (by omega)
          subst ha0
          refine ⟨[], ?_, ?_⟩
          · rw [List.append_nil] at ha ⊢
            exact ha.symm
          · rw [List.nil_append] at hb ⊢
            exact hb
        · exact ⟨c, hc, hd.symm⟩
      obtain ⟨b1, rfl, hb1⟩ := hb
      obtain ⟨fs1, fs2, q, hfs, hb2, hq, hcond⟩ := ih b1 tail hb1
      refine ⟨f :: fs1, fs2, q, ?_, ?_, hq, hcond⟩
      · rw [hfs]; rfl
      · rw [hb2]
        simp only [stream, List.map_cons, List.flatten_cons, List.append_assoc]

theorem frame_size_small (f : Frame) (h : f.size ≤ 65536) : f.2.length < 4294967296 := by
  rw [Frame.size, headerSize] at h
  omega

/-- One read event that brings whole frames and leaves an incomplete rest within the
cap: the frames are handed over and the rest is kept. -/
theorem onReadEvent_stream (srv : NetworkServer) (ml : MainLoop) (socket : Nat)
    (chunk : List Byte) (fs : List Frame) (q : List Byte)
    (hml : srv.mainLoop = some ml) (hopen : ml.messageQueue.shutdown = false)
    (hchunk : chunk ≠ [])
    (hfs : ∀ f ∈ fs, f.2.length < 4294967296)
    (hbuf : srv.messageBuffers socket ++ chunk = stream fs ++ q)
    (hq : MessageParser.isCompleteMessage q = false) (hcap : q.length ≤ 65536) :
    ((srv.onReadEvent { socket := socket, data := chunk }).server.mainLoop
        = some (ml.withQueued (fs.map (decode socket))))
      ∧ (srv.onReadEvent { socket := socket, data := chunk }).server.messageBuffers socket = q
      ∧ (srv.onReadEvent { socket := socket, data := chunk }).exceptionCaught = false := by
  have hne : chunk.isEmpty = false := by
    cases chunk with
    | nil => exact absurd rfl hchunk
    | cons x xs => rfl
  have hloop := parseLoop_stream socket q hq fs ml (stream fs ++ q).length hopen hfs
    (Nat.le_refl _)
  have hcap2 : ¬ q.length > maxBufferSize := by
    rw [maxBufferSize]; omega
  simp only [NetworkServer.onReadEvent, hne, Bool.false_eq_true, if_false, hbuf, hml, hloop,
    hcap2, Function.update_same, and_self]

/-- Reassembly over successive read events, from any point between two events. -/
theorem receive_stream (socket : Nat) (rest : List Byte)
    (hrest : MessageParser.isCompleteMessage rest = false) (hrestcap : rest.length ≤ 65536) :
    ∀ (chunks : List (List Byte)) (srv : NetworkServer) (ml : MainLoop) (fs : List Frame),
      srv.mainLoop = some ml → ml.messageQueue.shutdown = false →
      (∀ f ∈ fs, f.size ≤ 65536) → (∀ c ∈ chunks, c ≠ []) →
      srv.messageBuffers socket ++ chunks.flatten = stream fs ++ rest →
      (∀ f fs3, fs = f :: fs3 → (srv.messageBuffers socket).length < f.bytes.length) →
      (srv.receive socket chunks).mainLoop = some (ml.withQueued (fs.map (decode socket)))
        ∧ (srv.receive socket chunks).messageBuffers socket = rest := by
  intro chunks
  induction chunks with
  | nil =>
    intro srv ml fs hml _ _ _ hcut hpend
    simp only [List.flatten_nil, List.append_nil] at hcut
    cases fs with
    | nil =>
      simp only [stream, List.map_nil, List.flatten_nil, List.nil_append] at hcut
      simp only [NetworkServer.receive, List.foldl_nil, List.map_nil, withQueued_nil]
      exact ⟨hml, hcut⟩
    | cons f fs3 =>
      have h1 := hpend f fs3 rfl
      have hl := congrArg List.length hcut
      simp only [stream, List.map_cons, List.flatten_cons, List.length_append] at hl
      omega
  | cons c cs ih =>
    intro srv ml fs hml hopen hfs hchunks hcut hpend
    have hcut2 : (srv.messageBuffers socket ++ c) ++ cs.flatten = stream fs ++ rest := by
      rw [← hcut]; simp only [List.flatten_cons, List.append_assoc]
    obtain ⟨fs1, fs2, q, hsplit, hb, hq, hcond⟩ := split_stream rest fs _ _ hcut2
    have hfs1 : ∀ f ∈ fs1, f.2.length < 4294967296 := fun f hf =>
      frame_size_small f (hfs f (by rw [hsplit]; exact List.mem_append_left _ hf))
    have hfs2 : ∀ f ∈ fs2, f.size ≤ 65536 := fun f hf =>
      hfs f (by rw [hsplit]; exact List.mem_append_right _ hf)
    have hqinc : MessageParser.isCompleteMessage q = false ∧ q.length ≤ 65536 := by
      cases fs2 with
      | nil =>
        simp only [stream, List.map_nil, List.flatten_nil, List.nil_append] at hq
        by_cases htail : cs.flatten = []
        · rw [htail, List.append_nil] at hq
          rw [hq]
          exact ⟨hrest, hrestcap⟩
        · have hl := congrArg List.length hq
          rw [List.length_append] at hl
          refine ⟨?_, by omega⟩
          by_cases h8 : 8 ≤ q.length
          · obtain ⟨b0, b1, b2, b3, b4, b5, b6, b7, r, rfl⟩ := exists_eight q h8
            rw [← hq] at hrest
            simp only [List.cons_append] at hrest
            rw [isCompleteMessage_cons] at hrest ⊢
            simp only [decide_eq_false_iff_not, List.length_append] at hrest ⊢
            omega
          · exact (short_incomplete q (by omega)).1
      | cons f fs3 =>
        have hlt := hcond f fs3 rfl
        have hf := hfs2 f (List.mem_cons_self _ _)
        have hst : stream (f :: fs3) ++ rest = f.bytes ++ (stream fs3 ++ rest) := by
          simp only [stream, List.map_cons, List.flatten_cons, List.append_assoc]
        rw [hst] at hq
        have hpre : ∃ missing, q ++ missing = f.bytes ∧ missing ≠ [] := by
          rcases List.append_eq_append_iff.mp hq with ⟨a, ha, _⟩ | ⟨c1, hc1, _⟩
          · refine ⟨a, ha.symm, ?_⟩
            intro ha0
            rw [ha0, List.append_nil] at ha
            rw [ha] at hlt
            omega
          · have hl := congrArg List.length hc1
            rw [List.length_append] at hl
            omega
        obtain ⟨missing, hmq, hmne⟩ := hpre
        refine ⟨proper_part_incomplete f (frame_size_small f hf) q missing hmq hmne, ?_⟩
        have := proper_part_length f q missing hmq hmne
        omega
    obtain ⟨hmain, hbuf, -⟩ := onReadEvent_stream srv ml socket c fs1 q hml hopen
      (hchunks c (List.mem_cons_self _ _)) hfs1 hb hqinc.1 hqinc.2
    have hrec : srv.receive socket (c :: cs)
        = ((srv.onReadEvent { socket := socket, data := c }).server).receive socket cs := rfl
    rw [hrec]
    have := ih (srv.onReadEvent { socket := socket, data := c }).server
      (ml.withQueued (fs1.map (decode socket))) fs2 hmain
      (by rw [withQueued_shutdown]; exact hopen) hfs2
      (fun c1 hc1 => hchunks c1 (List.mem_cons_of_mem _ hc1))
      (by rw [hbuf]; exact hq)
      (by rw [hbuf]; exact hcond)
    rw [withQueued_append, ← List.map_append, ← hsplit] at this
    exact this

/-! ## Reassembly of frames by `onReadEvent` -/

/-- C6: take frames of total size at most 64KB each, followed by a strict initial part
`pending` of one more such frame (possibly no byte of it), and cut these bytes in any way
into non-empty chunks delivered as successive read events on one socket whose buffer
starts empty, with a main loop attached whose queue accepts messages. Then the main loop
has been handed exactly the decoded messages of the frames, each once and in the order
sent, and the buffer of the socket holds exactly `pending`. -/
theorem onReadEvent_reassembles (srv : NetworkServer) (ml : MainLoop) (socket : Nat)
    (frames : List Frame) (next : Frame) (pending missing : List Byte)
    (chunks : List (List Byte))
    (hml : srv.mainLoop = some ml) (hopen : ml.messageQueue.shutdown = false)
    (hempty : srv.messageBuffers socket = [])
    (hframes : ∀ f ∈ frames, f.size ≤ 65536) (hnext : next.size ≤ 65536)
    (hpending : pending ++ missing = next.bytes) (hmissing : missing ≠ [])
    (hchunks : ∀ c ∈ chunks, c ≠ [])
    (hcut : chunks.flatten = stream frames ++ pending) :
    (srv.receive socket chunks).mainLoop
        = some { messageQueue :=
                  { queue := ml.messageQueue.queue ++ frames.map (decode socket)
                    shutdown := false } }
      ∧ (srv.receive socket chunks).messageBuffers socket = pending := by
  have hinc := proper_part_incomplete next (frame_size_small next hnext) pending missing
    hpending hmissing
  have hcap : pending.length ≤ 65536 := by
    have := proper_part_length next pending missing hpending hmissing
    omega
  have h := receive_stream socket pending hinc hcap chunks srv ml frames hml hopen hframes
    hchunks (by rw [hempty, List.nil_append]; exact hcut)
    (by
      intro f fs3 _
      rw [hempty, frame_bytes_length]
      simp only [List.length_nil]
      omega)
  rw [MainLoop.withQueued, hopen] at h
  exact h

theorem onReadEvent_reassembles_witness :
    (freshServer.receive 7
        [[0, 0, 3, 233, 0, 0], [0, 3, 97, 124, 98, 0, 0, 3, 234, 0]]).mainLoop
        = some { messageQueue :=
                  { queue := [] ++ [((1001 : U32), [(97 : Byte), 124, 98])].map (decode 7)
                    shutdown := false } }
      ∧ (freshServer.receive 7
          [[0, 0, 3, 233, 0, 0], [0, 3, 97, 124, 98, 0, 0, 3, 234, 0]]).messageBuffers 7
          = [0, 0, 3, 234, 0] :=
  onReadEvent_reassembles freshServer { messageQueue := { queue := [], shutdown := false } } 7
    [(1001, [97, 124, 98])] (1002, [97]) [0, 0, 3, 234, 0] [0, 0, 1, 97]
    [[0, 0, 3, 233, 0, 0], [0, 3, 97, 124, 98, 0, 0, 3, 234, 0]]
    rfl rfl rfl (by decide) (by decide) (by decide) (by decide) (by decide) (by decide)

/-- The parsing loop cannot be left through an exception while the queue of the main
loop, if one is attached, is open; and it leaves that queue open. -/
theorem parseLoop_no_exception (socket : Nat) :
    ∀ (fuel : Nat) (buffer : List Byte) (ml : Option MainLoop),
      (∀ m, ml = some m → m.messageQueue.shutdown = false) →
      (parseLoop socket fuel buffer ml).threw = false
        ∧ ∀ m, (parseLoop socket fuel buffer ml).mainLoop = some m →
            m.messageQueue.shutdown = false := by
  intro fuel
  induction fuel with
  | zero =>
    intro buffer ml hml
    exact ⟨rfl, hml⟩
  | succ n ih =>
    intro buffer ml hml
    rw [parseLoop]
    split
    · split
      · exact ⟨rfl, hml⟩
      · split
        · exact ⟨rfl, hml⟩
        · rename_i message _
          cases ml with
          | none =>
            have hh : handOff none message socket = .ok none := rfl
            simp only [hh]
            split
            · exact ih _ none (fun m h => by cases h)
            · exact ⟨rfl, fun m h => by cases h⟩
          | some m0 =>
            have hopen := hml m0 rfl
            simp only [handOff_open m0 hopen]
            have hnext : ∀ m, some (m0.withQueued
                [convertNetworkMessageToMessage message (socket % 2 ^ 64)]) = some m →
                m.messageQueue.shutdown = false := by
              intro m hm
              cases hm
              exact hopen
            split
            · exact ih _ _ hnext
            · exact ⟨rfl, hnext⟩
    · exact ⟨rfl, hml⟩

/-- Along every run of read events from a server whose buffers are within the cap and
whose main loop, if any, has an open queue, no call ends in the `catch` block and every
buffer stays within the cap. -/
theorem readEvents_bounded (events : List IOEvent) :
    ∀ (srv : NetworkServer),
      (∀ m, srv.mainLoop = some m → m.messageQueue.shutdown = false) →
      (∀ s, (srv.messageBuffers s).length ≤ 65536) →
      (∀ m, (srv.readEvents events).mainLoop = some m → m.messageQueue.shutdown = false)
        ∧ ∀ s, ((srv.readEvents events).messageBuffers s).length ≤ 65536 := by
  induction events with
  | nil =>
    intro srv hml hb
    exact ⟨hml, hb⟩
  | cons e es ih =>
    intro srv hml hb
    have hstep : (∀ m, (srv.onReadEvent e).server.mainLoop = some m →
          m.messageQueue.shutdown = false)
        ∧ ∀ s, ((srv.onReadEvent e).server.messageBuffers s).length ≤ 65536 := by
      cases hd : e.data with
      | nil =>
        have hres : srv.onReadEvent e = { server := srv, exceptionCaught := false } := by
          simp [NetworkServer.onReadEvent, hd]
        rw [hres]
        exact ⟨hml, hb⟩
      | cons x xs =>
        have hne : e.data.isEmpty = false := by rw [hd]; rfl
        have hloop := parseLoop_no_exception e.socket
          (srv.messageBuffers e.socket ++ e.data).length
          (srv.messageBuffers e.socket ++ e.data) srv.mainLoop hml
        simp only [NetworkServer.onReadEvent, hne, Bool.false_eq_true, if_false, hloop.1]
        refine ⟨hloop.2, ?_⟩
        intro s
        by_cases hs : s = e.socket
        · subst hs
          simp only [Function.update_same, maxBufferSize]
          split
          · simp
          · omega
        · simp only [Function.update_noteq hs]
          exact hb s
    exact ih (srv.onReadEvent e).server hstep.1 hstep.2

/-- The loop run, with no main loop attached, on whole frames followed by an incomplete
rest parses the frames, hands nothing over and leaves the rest. -/
theorem parseLoop_stream_detached (socket : Nat) (q : List Byte)
    (hq : MessageParser.isCompleteMessage q = false) :
    ∀ (fs : List Frame) (fuel : Nat),
      (∀ f ∈ fs, f.2.length < 4294967296) →
      (stream fs ++ q).length ≤ fuel →
      parseLoop socket fuel (stream fs ++ q) none
        = { buffer := q, mainLoop := none, threw := false } := by
  intro fs
  induction fs with
  | nil =>
    intro fuel _ _
    simp only [stream, List.map_nil, List.flatten_nil, List.nil_append]
    exact parseLoop_incomplete socket fuel q none hq
  | cons f fs ih =>
    intro fuel hfs hfuel
    have hf : f.2.length < 4294967296 := hfs f (List.mem_cons_self _ _)
    have hst : stream (f :: fs) ++ q = f.bytes ++ (stream fs ++ q) := by
      simp only [stream, List.map_cons, List.flatten_cons, List.append_assoc]
    rw [hst] at hfuel ⊢
    have hlen : (f.bytes ++ (stream fs ++ q)).length
        = 8 + f.2.length + (stream fs ++ q).length := by
      rw [List.length_append, frame_bytes_length]
    cases fuel with
    | zero => omega
    | succ n =>
      have h8 : (f.bytes ++ (stream fs ++ q)).length ≥ headerSize := by
        rw [hlen, headerSize]; omega
      have hsize : (NetworkMessage.new f.1 f.2).getTotalSize
          ≤ (f.bytes ++ (stream fs ++ q)).length := by
        rw [getTotalSize_new f hf, List.length_append]; omega
      have hdrop : (f.bytes ++ (stream fs ++ q)).drop (NetworkMessage.new f.1 f.2).getTotalSize
          = stream fs ++ q := by
        rw [getTotalSize_new f hf, List.drop_left]
      have hh : handOff none (NetworkMessage.new f.1 f.2) socket = .ok none := rfl
      rw [parseLoop]
      simp only [h8, if_true, isComplete_frame_append f hf, parseMessage_frame_append f hf,
        hh, hsize, hdrop, Bool.not_true, Bool.false_eq_true, if_false]
      exact ih n (fun g hg => hfs g (List.mem_cons_of_mem _ hg)) (by rw [hlen] at hfuel; omega)

/-- The loop run on whole frames followed by an incomplete rest: the messages of the
frames go to the main loop, if one is attached, in order, and the rest is left. -/
theorem parseLoop_frames (socket : Nat) (q : List Byte)
    (hq : MessageParser.isCompleteMessage q = false) (fs : List Frame)
    (ml : Option MainLoop) (hopen : ∀ m, ml = some m → m.messageQueue.shutdown = false)
    (hfs : ∀ f ∈ fs, f.2.length < 4294967296) :
    parseLoop socket (stream fs ++ q).length (stream fs ++ q) ml
      = { buffer := q
          mainLoop := ml.map fun m => m.withQueued (fs.map (decode socket))
          threw := false } := by
  cases ml with
  | none => exact parseLoop_stream_detached socket q hq fs _ hfs (Nat.le_refl _)
  | some m => exact parseLoop_stream socket q hq fs m _ (hopen m rfl) hfs (Nat.le_refl _)

theorem frame_of_header (b0 b1 b2 b3 b4 b5 b6 b7 : Byte) (body : List Byte)
    (h : body.length = (packU32 b4 b5 b6 b7).val) :
    Frame.bytes (packU32 b0 b1 b2 b3, body)
      = b0 :: b1 :: b2 :: b3 :: b4 :: b5 :: b6 :: b7 :: body := by
  have hlt := (packU32 b4 b5 b6 b7).isLt
  rw [frame_bytes_eq]
  simp only
  rw [Nat.mod_eq_of_lt (by omega), h, beBytes_packU32, beBytes_packU32]
  rfl

/-- Every byte sequence is a sequence of whole frames followed by a strict initial part
of one more frame. -/
theorem exists_frames :
    ∀ (n : Nat) (b : List Byte), b.length ≤ n →
      ∃ (frames : List Frame) (next : Frame) (pending missing : List Byte),
        (∀ f ∈ frames, f.2.length < 4294967296) ∧ next.2.length < 4294967296
          ∧ pending ++ missing = next.bytes ∧ missing ≠ []
          ∧ b = stream frames ++ pending := by
  have hshort : ∀ b : List Byte, b.length < 8 →
      ∃ (frames : List Frame) (next : Frame) (pending missing : List Byte),
        (∀ f ∈ frames, f.2.length < 4294967296) ∧ next.2.length < 4294967296
          ∧ pending ++ missing = next.bytes ∧ missing ≠ []
          ∧ b = stream frames ++ pending := by
    intro b hb
    have hpad : 8 ≤ (b ++ List.replicate (8 - b.length) (0 : Byte)).length := by
      rw [List.length_append, List.length_replicate]; omega
    obtain ⟨b0, b1, b2, b3, b4, b5, b6, b7, rest, hrest⟩ := exists_eight _ hpad
    have hlt := (packU32 b4 b5 b6 b7).isLt
    refine ⟨[], (packU32 b0 b1 b2 b3,
        rest ++ List.replicate ((packU32 b4 b5 b6 b7).val - rest.length) 0), b,
      List.replicate (8 - b.length) 0
        ++ List.replicate ((packU32 b4 b5 b6 b7).val - rest.length) 0, ?_, ?_, ?_, ?_, ?_⟩
    · intro f hf; cases hf
    · simp only [List.length_append, List.length_replicate]
      have hl := congrArg List.length hrest
      simp only [List.length_append, List.length_replicate, List.length_cons] at hl
      omega
    · have hl := congrArg List.length hrest
      simp only [List.length_append, List.length_replicate, List.length_cons] at hl
      rw [frame_of_header b0 b1 b2 b3 b4 b5 b6 b7 _ (by
        simp only [List.length_append, List.length_replicate]; omega)]
      rw [← List.append_assoc, hrest]
      rfl
    · intro hc
      have hl := congrArg List.length hc
      simp only [List.length_append, List.length_replicate, List.length_nil] at hl
      omega
    · simp [stream]
  intro n
  induction n with
  | zero =>
    intro b hb
    exact hshort b (by omega)
  | succ k ih =>
    intro b hb
    by_cases h8 : 8 ≤ b.length
    · obtain ⟨b0, b1, b2, b3, b4, b5, b6, b7, rest, rfl⟩ := exists_eight b h8
      have hlt := (packU32 b4 b5 b6 b7).isLt
      simp only [List.length_cons] at hb
      by_cases hc : rest.length < (packU32 b4 b5 b6 b7).val
      · refine ⟨[], (packU32 b0 b1 b2 b3,
            rest ++ List.replicate ((packU32 b4 b5 b6 b7).val - rest.length) 0),
          b0 :: b1 :: b2 :: b3 :: b4 :: b5 :: b6 :: b7 :: rest,
          List.replicate ((packU32 b4 b5 b6 b7).val - rest.length) 0, ?_, ?_, ?_, ?_, ?_⟩
        · intro f hf; cases hf
        · simp only [List.length_append, List.length_replicate]
          omega
        · rw [frame_of_header b0 b1 b2 b3 b4 b5 b6 b7 _ (by
            simp only [List.length_append, List.length_replicate]; omega)]
          rfl
        · intro hnil
          have hl := congrArg List.length hnil
          simp only [List.length_replicate, List.length_nil] at hl
          omega
        · simp [stream]
      · obtain ⟨frames, next, pending, missing, hfs, hnext, hpend, hmiss, hsplit⟩ :=
          ih (rest.drop (packU32 b4 b5 b6 b7).val) (by
            simp only [List.length_drop]; omega)
        refine ⟨(packU32 b0 b1 b2 b3, rest.take (packU32 b4 b5 b6 b7).val) :: frames, next,
          pending, missing, ?_, hnext, hpend, hmiss, ?_⟩
        · intro f hf
          rcases List.mem_cons.mp hf with rfl | hf
          · simp only [List.length_take]
            omega
          · exact hfs f hf
        · have hst : stream ((packU32 b0 b1 b2 b3, rest.take (packU32 b4 b5 b6 b7).val)
              :: frames) ++ pending
              = Frame.bytes (packU32 b0 b1 b2 b3, rest.take (packU32 b4 b5 b6 b7).val)
                ++ (stream frames ++ pending) := by
            simp only [stream, List.map_cons, List.flatten_cons, List.append_assoc]
          rw [hst, ← hsplit, frame_of_header b0 b1 b2 b3 b4 b5 b6 b7 _ (by
            simp only [List.length_take]; omega)]
          simp only [List.cons_append, List.take_append_drop]
    · exact hshort b (by omega)

theorem readEvents_snoc (srv : NetworkServer) (events : List IOEvent) (event : IOEvent) :
    srv.readEvents (events ++ [event]) = ((srv.readEvents events).onReadEvent event).server := by
  simp [NetworkServer.readEvents, List.foldl_append]

/-- No call of `onReadEvent` on a server whose main loop, if any, has an open queue ends
in the `catch` block or sends an error response. -/
theorem onReadEvent_no_exception (srv : NetworkServer) (event : IOEvent)
    (hopen : ∀ m, srv.mainLoop = some m → m.messageQueue.shutdown = false) :
    (srv.onReadEvent event).exceptionCaught = false
      ∧ (srv.onReadEvent event).server.sentResponses = srv.sentResponses := by
  cases hd : event.data with
  | nil =>
    have hres : srv.onReadEvent event = { server := srv, exceptionCaught := false } := by
      simp [NetworkServer.onReadEvent, hd]
    rw [hres]
    exact ⟨rfl, rfl⟩
  | cons x xs =>
    have hne : event.data.isEmpty = false := by rw [hd]; rfl
    have hloop := parseLoop_no_exception event.socket
      (srv.messageBuffers event.socket ++ event.data).length
      (srv.messageBuffers event.socket ++ event.data) srv.mainLoop hopen
    simp only [NetworkServer.onReadEvent, hne, Bool.false_eq_true, if_false, hloop.1, and_self]

/-! ## The cap on the reassembly buffer -/

/-- C7: take a server whose buffers start within the cap (they start empty) and whose
main loop, if one is attached, has an open queue, and let it handle any sequence of read
events and then one more. That last call of `onReadEvent` does not end in the `catch`
block and sends no error response, and after it every buffer holds at most 65536 bytes.
The bytes then gathered for its socket (the buffer followed by the bytes read) are
always whole frames followed by incomplete data `pending`, a strict initial part of one
more frame; and however they are cut so, a call that has read something leaves the buffer
holding exactly `pending` when `pending` has at most 65536 bytes and leaves it empty when
it has more; in both cases the main loop receives the messages of the whole frames and
nothing else, so no message is made of the pending or dropped bytes. -/
theorem onReadEvent_buffer_cap (srv : NetworkServer) (events : List IOEvent) (event : IOEvent)
    (hopen : ∀ m, srv.mainLoop = some m → m.messageQueue.shutdown = false)
    (hstart : ∀ s, (srv.messageBuffers s).length ≤ 65536) :
    ((srv.readEvents events).onReadEvent event).exceptionCaught = false
      ∧ ((srv.readEvents events).onReadEvent event).server.sentResponses
          = (srv.readEvents events).sentResponses
      ∧ (∀ s, (((srv.readEvents events).onReadEvent event).server.messageBuffers s).length
          ≤ 65536)
      ∧ (∃ (frames : List Frame) (next : Frame) (pending missing : List Byte),
          (∀ f ∈ frames, f.2.length < 4294967296) ∧ next.2.length < 4294967296
            ∧ pending ++ missing = next.bytes ∧ missing ≠ []
            ∧ (srv.readEvents events).messageBuffers event.socket ++ event.data
                = stream frames ++ pending)
      ∧ (∀ (frames : List Frame) (next : Frame) (pending missing : List Byte),
          event.data ≠ [] →
          (∀ f ∈ frames, f.2.length < 4294967296) → next.2.length < 4294967296 →
          pending ++ missing = next.bytes → missing ≠ [] →
          (srv.readEvents events).messageBuffers event.socket ++ event.data
            = stream frames ++ pending →
          ((srv.readEvents events).onReadEvent event).server.messageBuffers event.socket
              = (if pending.length ≤ 65536 then pending else [])
            ∧ ((srv.readEvents events).onReadEvent event).server.mainLoop
              = (srv.readEvents events).mainLoop.map fun ml =>
                  ml.withQueued (frames.map (decode event.socket))) := by
  obtain ⟨hopen1, -⟩ := readEvents_bounded events srv hopen hstart
  obtain ⟨-, hcap2⟩ := readEvents_bounded (events ++ [event]) srv hopen hstart
  rw [readEvents_snoc] at hcap2
  obtain ⟨hcaught, hsent⟩ := onReadEvent_no_exception (srv.readEvents events) event hopen1
  refine ⟨hcaught, hsent, hcap2, exists_frames _ _ (Nat.le_refl _), ?_⟩
  intro frames next pending missing hdata hframes hnext hpending hmissing hbuf
  have hinc := proper_part_incomplete next hnext pending missing hpending hmissing
  have hne : event.data.isEmpty = false := by
    cases hd : event.data with
    | nil => exact absurd hd hdata
    | cons x xs => rfl
  have hloop := parseLoop_frames event.socket pending hinc frames
    (srv.readEvents events).mainLoop hopen1 hframes
  simp only [NetworkServer.onReadEvent, hne, Bool.false_eq_true, if_false, hbuf, hloop,
    Function.update_same, maxBufferSize, true_and]
  by_cases hle : pending.length ≤ 65536
  · have hgt : ¬ pending.length > 64 * 1024 := by omega
    simp only [hgt, hle, if_true, if_false, and_self]
  · have hgt : pending.length > 64 * 1024 := by omega
    simp only [hgt, hle, if_true, if_false, and_self]

theorem onReadEvent_buffer_cap_witness :
    (∀ m, freshServer.mainLoop = some m → m.messageQueue.shutdown = false)
      ∧ (∀ s, (freshServer.messageBuffers s).length ≤ 65536)
      ∧ ((freshServer.readEvents [{ socket := 7, data := [0, 0, 3, 233, 0, 0] }]).onReadEvent
            { socket := 7, data := [0, 3, 97, 124, 98, 0, 0, 3, 234, 0] }).exceptionCaught = false
      ∧ ((freshServer.readEvents [{ socket := 7, data := [0, 0, 3, 233, 0, 0] }]).onReadEvent
            { socket := 7, data := [0, 3, 97, 124, 98, 0, 0, 3, 234, 0] }).server.sentResponses
          = (freshServer.readEvents [{ socket := 7, data := [0, 0, 3, 233, 0, 0] }]).sentResponses
      ∧ (∀ s, (((freshServer.readEvents
            [{ socket := 7, data := [0, 0, 3, 233, 0, 0] }]).onReadEvent
            { socket := 7, data := [0, 3, 97, 124, 98, 0, 0, 3, 234, 0] }).server.messageBuffers
              s).length ≤ 65536)
      ∧ ((freshServer.readEvents [{ socket := 7, data := [0, 0, 3, 233, 0, 0] }]).onReadEvent
            { socket := 7, data := [0, 3, 97, 124, 98, 0, 0, 3, 234, 0] }).server.messageBuffers 7
          = (if ([0, 0, 3, 234, 0] : List Byte).length ≤ 65536 then [0, 0, 3, 234, 0] else [])
      ∧ ((freshServer.readEvents [{ socket := 7, data := [0, 0, 3, 233, 0, 0] }]).onReadEvent
            { socket := 7, data := [0, 3, 97, 124, 98, 0, 0, 3, 234, 0] }).server.mainLoop
          = (freshServer.readEvents [{ socket := 7, data := [0, 0, 3, 233, 0, 0] }]).mainLoop.map
              fun ml => ml.withQueued ([((1001 : U32), [(97 : Byte), 124, 98])].map (decode 7)) :=
  have h := onReadEvent_buffer_cap freshServer [{ socket := 7, data := [0, 0, 3, 233, 0, 0] }]
    { socket := 7, data := [0, 3, 97, 124, 98, 0, 0, 3, 234, 0] }
    (fun m hm => by cases hm; rfl) (fun _ => Nat.zero_le _)
  ⟨fun m hm => by cases hm; rfl, fun _ => Nat.zero_le _, h.1, h.2.1, h.2.2.1,
    h.2.2.2.2 [(1001, [97, 124, 98])] (1002, [97]) [0, 0, 3, 234, 0] [0, 0, 1, 97]
      (by decide) (by decide) (by decide) (by decide) (by decide) (by decide)⟩


/-! ## The connection pool: `connect()` and the states a pool reaches -/

/-- On a newly constructed connection object `connect()` returns false, whether or not
the database accepts the connection: `ping()` answers false while `connected_` is false,
and `connected_` is set only after that test. -/
theorem connect_new_fails (id : Nat) (accepted : Bool) :
    ((MySQLConnection.new id).connect accepted).1 = false := by
  cases accepted <;> rfl

/-- `createConnection()` never adds a connection: it returns false and leaves the pool as
it was, up to the count of connection objects constructed. -/
theorem createConnection_eq (db : Nat → Bool) (p : MySQLPool) :
    p.createConnection db
      = if p.canCreateNewConnection then (false, { p with nextId := p.nextId + 1 })
        else (false, p) := by
  unfold MySQLPool.createConnection
  cases h : p.canCreateNewConnection
  · simp
  · simp [connect_new_fails]

theorem createConnection_fails (db : Nat → Bool) (p : MySQLPool) :
    (p.createConnection db).1 = false
      ∧ (p.createConnection db).2 = { p with nextId := (p.createConnection db).2.nextId } := by
  rw [createConnection_eq]
  split <;> exact ⟨rfl, rfl⟩

theorem growLoop_eq (db : Nat → Bool) (n : Nat) (p : MySQLPool) :
    MySQLPool.growLoop db n p = { p with nextId := (MySQLPool.growLoop db n p).nextId } := by
  cases n with
  | zero => rfl
  | succ k =>
    rw [MySQLPool.growLoop, createConnection_eq]
    by_cases hc : p.canCreateNewConnection = true <;> simp [hc]

theorem shrinkLoop_no_idle (n : Nat) (p : MySQLPool) (hidle : p.idleConnections = []) :
    MySQLPool.shrinkLoop n p = p := by
  cases n with
  | zero => rfl
  | succ k => simp [MySQLPool.shrinkLoop, hidle]

theorem resizePool_no_idle (db : Nat → Bool) (p : MySQLPool) (newSize : Int)
    (hidle : p.idleConnections = []) :
    p.resizePool db newSize
      = { p with currentPoolSize := newSize, nextId := (p.resizePool db newSize).nextId } := by
  unfold MySQLPool.resizePool
  split
  · rename_i h
    subst h
    rfl
  · split
    · simp only
      generalize hg : MySQLPool.growLoop db (newSize - p.currentPoolSize).toNat p = g
      have := growLoop_eq db (newSize - p.currentPoolSize).toNat p
      rw [hg] at this
      rw [this]
    · simp only [shrinkLoop_no_idle _ p hidle]

theorem resize_calls_no_idle (db : Nat → Bool) (p : MySQLPool) (n : Int)
    (hidle : p.idleConnections = []) :
    (p.setPoolSize db n).2
        = { p with currentPoolSize := (p.setPoolSize db n).2.currentPoolSize,
                   nextId := (p.setPoolSize db n).2.nextId }
      ∧ (p.increasePoolSize db n).2
        = { p with currentPoolSize := (p.increasePoolSize db n).2.currentPoolSize,
                   nextId := (p.increasePoolSize db n).2.nextId }
      ∧ (p.decreasePoolSize db n).2
        = { p with currentPoolSize := (p.decreasePoolSize db n).2.currentPoolSize,
                   nextId := (p.decreasePoolSize db n).2.nextId } := by
  refine ⟨?_, ?_, ?_⟩
  · unfold MySQLPool.setPoolSize
    split
    · rfl
    · simp only
      rw [resizePool_no_idle db p n hidle]
  · unfold MySQLPool.increasePoolSize
    simp only
    split
    · rfl
    · simp only
      rw [resizePool_no_idle db p _ hidle]
  · unfold MySQLPool.decreasePoolSize
    simp only
    split
    · rfl
    · simp only
      rw [resizePool_no_idle db p _ hidle]

/-- C10 fails on the code: with `minPoolSize = 0`, `maxPoolSize = 2` and a database that
accepts every connection, `initialize()` succeeds and the first `acquire()` already
returns null, because the `connect()` of the connection object it creates returns false;
with `minPoolSize = 1` not even `initialize()` succeeds. -/
theorem first_acquire_returns_null :
    (startedPool { minPoolSize := 0, maxPoolSize := 2 }).1 = true
      ∧ ((MySQLConnection.new 0).connect (alwaysUp 0)).1 = false
      ∧ ((startedPool { minPoolSize := 0, maxPoolSize := 2 }).2.createConnection alwaysUp).1
          = false
      ∧ ((startedPool { minPoolSize := 0, maxPoolSize := 2 }).2.acquire alwaysUp).1 = none
      ∧ (startedPool { minPoolSize := 1, maxPoolSize := 2 }).1 = false := by
  decide

/-- C12 fails on the code: with `minPoolSize = 0`, `maxPoolSize = 1` and a database that
accepts every connection, the `acquire()` of the very first round returns null, and so
does that of the second round. -/
theorem first_round_returns_null :
    (startedPool { minPoolSize := 0, maxPoolSize := 1 }).1 = true
      ∧ ((startedPool { minPoolSize := 0, maxPoolSize := 1 }).2.round alwaysUp).1 = none
      ∧ (((startedPool { minPoolSize := 0, maxPoolSize := 1 }).2.round alwaysUp).2.round
          alwaysUp).1 = none := by
  decide

theorem started_min_zero (db : Nat → Bool) (maxPoolSize : Nat) :
    startedPoolOn db { minPoolSize := 0, maxPoolSize := maxPoolSize }
      = (true, MySQLPool.new { minPoolSize := 0, maxPoolSize := maxPoolSize }) := by
  simp [startedPoolOn, MySQLPool.initialize, MySQLPool.new]

/-- C14 fails on the code: with `minPoolSize = 0`, `maxPoolSize = 3` and any database,
`initialize()` succeeds; `setPoolSize(3)` then meets a failed `createConnection()`, and
yet it returns true and leaves `currentPoolSize = 3` with no connection in the pool. -/
theorem setPoolSize_reports_success_on_failed_connect (db : Nat → Bool) :
    (startedPoolOn db { minPoolSize := 0, maxPoolSize := 3 }).1 = true
      ∧ ((startedPoolOn db { minPoolSize := 0, maxPoolSize := 3 }).2.createConnection db).1
          = false
      ∧ ((startedPoolOn db { minPoolSize := 0, maxPoolSize := 3 }).2.setPoolSize db 3).1 = true
      ∧ ((startedPoolOn db { minPoolSize := 0, maxPoolSize := 3 }).2.setPoolSize
          db 3).2.currentPoolSize = 3
      ∧ ((startedPoolOn db { minPoolSize := 0, maxPoolSize := 3 }).2.setPoolSize
          db 3).2.totalConnections = 0
      ∧ ((startedPoolOn db { minPoolSize := 0, maxPoolSize := 3 }).2.setPoolSize
          db 3).2.idleConnections.length = 0 := by
  have hs := started_min_zero db 3
  simp only [Nat.cast_ofNat] at hs
  rw [hs]
  refine ⟨rfl, (createConnection_fails db _).1, rfl, ?_, ?_, ?_⟩
  · simp only [MySQLPool.setPoolSize, MySQLPool.new]
    rw [resizePool_no_idle db _ 3 rfl]
    rfl
  · rw [(resize_calls_no_idle db _ 3 rfl).1]
    rfl
  · rw [(resize_calls_no_idle db _ 3 rfl).1]
    rfl

/-- C15 fails on the code: with `minPoolSize = 0`, `maxPoolSize = 3` and
`currentPoolSize = 0` after `initialize()`, `increasePoolSize(-1)` returns true although
its target size -1 is below `minPoolSize`, and `decreasePoolSize(-5)` returns true
although its target size 5 is above `maxPoolSize`; both leave `currentPoolSize` at that
target. -/
theorem resize_by_negative_delta_accepted (db : Nat → Bool) :
    (startedPoolOn db { minPoolSize := 0, maxPoolSize := 3 }).1 = true
      ∧ (startedPoolOn db { minPoolSize := 0, maxPoolSize := 3 }).2.currentPoolSize = 0
      ∧ ((startedPoolOn db { minPoolSize := 0, maxPoolSize := 3 }).2.increasePoolSize
          db (-1)).1 = true
      ∧ ((startedPoolOn db { minPoolSize := 0, maxPoolSize := 3 }).2.increasePoolSize
          db (-1)).2.currentPoolSize = -1
      ∧ ((startedPoolOn db { minPoolSize := 0, maxPoolSize := 3 }).2.decreasePoolSize
          db (-5)).1 = true
      ∧ ((startedPoolOn db { minPoolSize := 0, maxPoolSize := 3 }).2.decreasePoolSize
          db (-5)).2.currentPoolSize = 5 := by
  have hs := started_min_zero db 3
  simp only [Nat.cast_ofNat] at hs
  rw [hs]
  refine ⟨rfl, rfl, rfl, ?_, rfl, ?_⟩
  · simp only [MySQLPool.increasePoolSize, MySQLPool.new]
    rw [resizePool_no_idle db _ _ rfl]
    rfl
  · simp only [MySQLPool.decreasePoolSize, MySQLPool.new]
    rw [resizePool_no_idle db _ _ rfl]
    rfl


/-- The part of C15 that holds: a call of `setPoolSize`, `increasePoolSize` or
`decreasePoolSize` that returns false leaves the pool as it was, and `setPoolSize`
returns true only for a size within `[minPoolSize, maxPoolSize]`. -/
theorem rejected_resize_unchanged (db : Nat → Bool) (p : MySQLPool) (n : Int) :
    ((p.setPoolSize db n).1 = false → (p.setPoolSize db n).2 = p)
      ∧ ((p.increasePoolSize db n).1 = false → (p.increasePoolSize db n).2 = p)
      ∧ ((p.decreasePoolSize db n).1 = false → (p.decreasePoolSize db n).2 = p)
      ∧ ((p.setPoolSize db n).1 = true →
          p.config.minPoolSize ≤ n ∧ n ≤ p.config.maxPoolSize) := by
  refine ⟨?_, ?_, ?_, ?_⟩
  · unfold MySQLPool.setPoolSize
    split
    · intro _; rfl
    · intro h; cases h
  · unfold MySQLPool.increasePoolSize
    simp only
    split
    · intro _; rfl
    · intro h; cases h
  · unfold MySQLPool.decreasePoolSize
    simp only
    split
    · intro _; rfl
    · intro h; cases h
  · unfold MySQLPool.setPoolSize
    split
    · intro h; cases h
    · rename_i hc
      intro _
      simp only [Bool.or_eq_true, decide_eq_true_eq, not_or, not_lt] at hc
      omega

theorem shutdownPool_flag (p : MySQLPool) : p.shutdownPool.shutdown = true := by
  unfold MySQLPool.shutdownPool
  cases h : p.shutdown with
  | true => simp [h]
  | false => simp

theorem acquire_after_shutdown (db : Nat → Bool) (p : MySQLPool) (h : p.shutdown = true) :
    p.acquire db = (none, p) := by
  simp [MySQLPool.acquire, h]

theorem release_after_shutdown (p : MySQLPool) (conn : Option MySQLConnection)
    (h : p.shutdown = true) : p.release conn = p := by
  cases conn with
  | none => rfl
  | some c => simp [MySQLPool.release, h]

theorem calls_after_shutdown (db : Nat → Bool) (cs : List PoolCall) :
    ∀ p : MySQLPool, p.shutdown = true → p.calls db cs = p := by
  induction cs with
  | nil => intro p _; rfl
  | cons c cs ih =>
    intro p h
    have hstep : MySQLPool.call db p c = p := by
      cases c with
      | acquire =>
        simp only [MySQLPool.call]
        rw [acquire_after_shutdown db p h]
      | release conn => exact release_after_shutdown p conn h
    have hcalls : p.calls db (c :: cs) = (MySQLPool.call db p c).calls db cs := rfl
    rw [hcalls, hstep]
    exact ih p h

/-- C16: `shutdown()` on a running pool leaves the flag set, the idle list empty and
`activeConnections`, `totalConnections` and `currentPoolSize` at zero; a second
`shutdown()` changes nothing; every later `acquire()` returns null and every later
`release()` leaves the pool as it is, whatever calls were made in between; more
generally, in every state whose flag is set `acquire()` returns null and `release()`
changes nothing. -/
theorem shutdown_terminal (p : MySQLPool) :
    (p.shutdown = false →
        p.shutdownPool.shutdown = true
        ∧ p.shutdownPool.idleConnections = []
        ∧ p.shutdownPool.activeConnections = 0
        ∧ p.shutdownPool.totalConnections = 0
        ∧ p.shutdownPool.currentPoolSize = 0)
      ∧ p.shutdownPool.shutdownPool = p.shutdownPool
      ∧ (∀ (db : Nat → Bool) (cs : List PoolCall),
          (p.shutdownPool.calls db cs) = p.shutdownPool
          ∧ ((p.shutdownPool.calls db cs).acquire db) = (none, p.shutdownPool)
          ∧ ∀ conn, (p.shutdownPool.calls db cs).release conn = p.shutdownPool)
      ∧ (∀ (s : MySQLPool), s.shutdown = true →
          ∀ (db : Nat → Bool) (conn : Option MySQLConnection),
            s.acquire db = (none, s) ∧ s.release conn = s) := by
  have hflag := shutdownPool_flag p
  refine ⟨?_, ?_, ?_, fun s hs db conn =>
    ⟨acquire_after_shutdown db s hs, release_after_shutdown s conn hs⟩⟩
  · intro h
    simp [MySQLPool.shutdownPool, h]
  · generalize p.shutdownPool = s at hflag
    simp [MySQLPool.shutdownPool, hflag]
  · intro db cs
    rw [calls_after_shutdown db cs _ hflag]
    exact ⟨rfl, acquire_after_shutdown db _ hflag, fun conn =>
      release_after_shutdown _ conn hflag⟩

/-! ## The message queue -/

theorem push_some_open (q : MessageQueue) (m : Message) (h : q.shutdown = false) :
    q.push (some m) = .ok { queue := q.queue ++ [m], shutdown := false } := by
  simp [MessageQueue.push, h]

theorem push_closed (q : MessageQueue) (message : Option Message) (h : q.shutdown = true) :
    ∃ e, q.push message = .error e := by
  cases message with
  | none => exact ⟨.invalidArgument, rfl⟩
  | some m => exact ⟨.runtimeError, by simp [MessageQueue.push, h]⟩

theorem pop_nonempty (q : MessageQueue) (wait : Bool) (m : Message) (rest : List Message)
    (h : q.queue = m :: rest) :
    q.pop wait = some (some m, { queue := rest, shutdown := q.shutdown }) := by
  cases wait <;> simp [MessageQueue.pop, h]

theorem pop_keeps_flag (q : MessageQueue) (wait : Bool) (r : Option Message)
    (q1 : MessageQueue) (h : q.pop wait = some (r, q1)) : q1.shutdown = q.shutdown := by
  cases hq : q.queue with
  | nil =>
    cases wait <;> cases hs : q.shutdown <;> simp [MessageQueue.pop, hq, hs] at h
    all_goals rw [← h.2, hs]
  | cons m rest =>
    rw [pop_nonempty q wait m rest hq] at h
    simp only [Option.some.injEq, Prod.mk.injEq] at h
    rw [← h.2]

theorem pops_keep_flag (waits : List Bool) :
    ∀ (q : MessageQueue) (rs : List (Option Message)) (q1 : MessageQueue),
      q.pops waits = some (rs, q1) → q1.shutdown = q.shutdown := by
  induction waits with
  | nil =>
    intro q rs q1 h
    simp only [MessageQueue.pops, Option.some.injEq, Prod.mk.injEq] at h
    rw [← h.2]
  | cons w ws ih =>
    intro q rs q1 h
    rw [MessageQueue.pops] at h
    cases hp : q.pop w with
    | none => simp [hp] at h
    | some res =>
      obtain ⟨r, q2⟩ := res
      simp only [hp] at h
      cases hps : q2.pops ws with
      | none => simp [hps] at h
      | some res2 =>
        obtain ⟨rs2, q3⟩ := res2
        simp only [hps, Option.some.injEq, Prod.mk.injEq] at h
        rw [← h.2, ih q2 rs2 q3 hps, pop_keeps_flag q w r q2 hp]

theorem pushAll_ok (ms : List Message) :
    ∀ (q q1 : MessageQueue), q.pushAll ms = .ok q1 →
      q1.queue = q.queue ++ ms ∧ q1.shutdown = q.shutdown := by
  induction ms with
  | nil =>
    intro q q1 h
    simp only [MessageQueue.pushAll, Except.ok.injEq] at h
    rw [← h]
    simp
  | cons m ms ih =>
    intro q q1 h
    rw [MessageQueue.pushAll] at h
    cases hs : q.shutdown with
    | true =>
      obtain ⟨e, he⟩ := push_closed q (some m) hs
      simp [he] at h
    | false =>
      rw [push_some_open q m hs] at h
      simp only at h
      obtain ⟨h1, h2⟩ := ih _ q1 h
      simp only [] at h1 h2
      rw [h1, h2]
      simp

theorem pops_of_queue (ms : List Message) :
    ∀ (q : MessageQueue) (rest : List Message) (waits : List Bool),
      q.queue = ms ++ rest → waits.length = ms.length →
      q.pops waits = some (ms.map some, { queue := rest, shutdown := q.shutdown }) := by
  induction ms with
  | nil =>
    intro q rest waits hq hw
    have hw0 : waits = [] := List.eq_nil_of_length_eq_zero hw
    subst hw0
    simp only [List.nil_append] at hq
    simp only [MessageQueue.pops, List.map_nil, ← hq]
  | cons m ms ih =>
    intro q rest waits hq hw
    cases waits with
    | nil => simp at hw
    | cons w ws =>
      simp only [List.length_cons, Nat.add_right_cancel_iff] at hw
      rw [MessageQueue.pops, pop_nonempty q w m (ms ++ rest) hq]
      simp only
      rw [ih { queue := ms ++ rest, shutdown := q.shutdown } rest ws rfl hw]
      simp only [List.map_cons]

/-- C17: `push` throws exactly when the message is null or the queue has been shut down;
a push that throws leaves the queue as it was, and a push that returns has appended the
message at the back and changed nothing else. -/
theorem push_spec (q : MessageQueue) (message : Option Message) :
    ((∃ e, q.push message = .error e) ↔ (message = none ∨ q.shutdown = true))
      ∧ ((∃ e, q.push message = .error e) → q.afterPush message = q)
      ∧ (∀ q1, q.push message = .ok q1 →
          ∃ m, message = some m ∧ q1.queue = q.queue ++ [m] ∧ q1.shutdown = q.shutdown
            ∧ q.afterPush message = q1) := by
  cases message with
  | none =>
    refine ⟨⟨fun _ => Or.inl rfl, fun _ => ⟨.invalidArgument, rfl⟩⟩, fun _ => rfl, ?_⟩
    intro q1 h
    cases h
  | some m =>
    cases hs : q.shutdown with
    | true =>
      have he : q.push (some m) = .error .runtimeError := by simp [MessageQueue.push, hs]
      refine ⟨⟨fun _ => Or.inr rfl, fun _ => ⟨_, he⟩⟩, ?_, ?_⟩
      · intro _
        simp [MessageQueue.afterPush, he]
      · intro q1 h
        rw [he] at h
        cases h
    | false =>
      have hok := push_some_open q m hs
      refine ⟨⟨?_, ?_⟩, ?_, ?_⟩
      · rintro ⟨e, he⟩
        rw [hok] at he
        cases he
      · rintro (h | h)
        · cases h
        · cases h
      · rintro ⟨e, he⟩
        rw [hok] at he
        cases he
      · intro q1 h
        rw [hok] at h
        cases h
        exact ⟨m, rfl, rfl, rfl, by simp [MessageQueue.afterPush, hok]⟩

/-- C18: `pop(false)` always returns; it returns null exactly when the queue is empty
(and then leaves it as it is), and otherwise returns the front message and removes it.
`pop(true)` stays blocked exactly while the queue is empty and not shut down; when it
returns, it returns null only if the queue is shut down and empty, and otherwise returns
the front message and removes it. -/
theorem pop_spec (q : MessageQueue) :
    (∃ r q1, q.pop false = some (r, q1) ∧ (r = none ↔ q.queue = []))
      ∧ (q.queue = [] → q.pop false = some (none, q))
      ∧ (∀ m rest, q.queue = m :: rest →
          q.pop false = some (some m, { queue := rest, shutdown := q.shutdown }))
      ∧ (q.pop true = none ↔ (q.queue = [] ∧ q.shutdown = false))
      ∧ (∀ q1, q.pop true = some (none, q1) →
          q.shutdown = true ∧ q.queue = [] ∧ q1 = q)
      ∧ (q.shutdown = true → q.queue = [] → q.pop true = some (none, q))
      ∧ (∀ m rest, q.queue = m :: rest →
          q.pop true = some (some m, { queue := rest, shutdown := q.shutdown })) := by
  cases hq : q.queue with
  | nil =>
    cases hs : q.shutdown with
    | true =>
      have h1 : q.pop false = some (none, q) := by simp [MessageQueue.pop, hq]
      have h2 : q.pop true = some (none, q) := by simp [MessageQueue.pop, hq, hs]
      refine ⟨⟨none, q, h1, by simp⟩, fun _ => h1, ?_, ?_, ?_, fun _ _ => h2, ?_⟩
      · intro m rest h; cases h
      · rw [h2]; simp
      · intro q1 h
        rw [h2] at h
        simp only [Option.some.injEq, Prod.mk.injEq, true_and] at h
        exact ⟨rfl, rfl, h.symm⟩
      · intro m rest h; cases h
    | false =>
      have h1 : q.pop false = some (none, q) := by simp [MessageQueue.pop, hq]
      have h2 : q.pop true = none := by simp [MessageQueue.pop, hq, hs]
      refine ⟨⟨none, q, h1, by simp⟩, fun _ => h1, ?_, ?_, ?_, ?_, ?_⟩
      · intro m rest h; cases h
      · rw [h2]; simp
      · intro q1 h
        rw [h2] at h
        cases h
      · intro h; cases h
      · intro m rest h; cases h
  | cons m0 rest0 =>
    have h1 := pop_nonempty q false m0 rest0 hq
    have h2 := pop_nonempty q true m0 rest0 hq
    refine ⟨⟨some m0, _, h1, by simp⟩, ?_, ?_, ?_, ?_, ?_, ?_⟩
    · intro h; cases h
    · intro m rest h
      cases h
      exact h1
    · rw [h2]; simp
    · intro q1 h
      rw [h2] at h
      simp at h
    · intro _ h; cases h
    · intro m rest h
      cases h
      exact h2

/-- C19, as stated, fails: push one message onto an empty queue, call `shutdown()`, then
`pop(true)`: the call returns the message that was queued, not null. -/
theorem pop_after_shutdown_returns_message :
    (((MessageQueue.mk [] false).afterPush
        (some (Message.generic .CUSTOM [104, 105] [55]))).shutdownQueue.pop true)
      = some (some (Message.generic .CUSTOM [104, 105] [55]),
          { queue := [], shutdown := true })
      ∧ ¬ ∃ q1, (((MessageQueue.mk [] false).afterPush
          (some (Message.generic .CUSTOM [104, 105] [55]))).shutdownQueue.pop true)
          = some (none, q1) := by
  have h0 : (((MessageQueue.mk [] false).afterPush
      (some (Message.generic .CUSTOM [104, 105] [55]))).shutdownQueue.pop true)
      = some (some (Message.generic .CUSTOM [104, 105] [55]),
          { queue := [], shutdown := true }) := by decide
  refine ⟨h0, ?_⟩
  rintro ⟨q1, h⟩
  rw [h0] at h
  simp at h

/-- C19, amended: after `shutdown()` has been called, `pop(true)` does not block: it
returns null when the queue is empty and otherwise returns and removes the front
message; and every subsequent `push`, also after any number of pops, fails. -/
theorem queue_after_shutdown (q : MessageQueue) :
    q.shutdownQueue.pop true ≠ none
      ∧ (q.queue = [] → q.shutdownQueue.pop true = some (none, q.shutdownQueue))
      ∧ (∀ m rest, q.queue = m :: rest →
          q.shutdownQueue.pop true = some (some m, { queue := rest, shutdown := true }))
      ∧ (∀ message, ∃ e, q.shutdownQueue.push message = .error e)
      ∧ (∀ (waits : List Bool) (rs : List (Option Message)) (q1 : MessageQueue),
          q.shutdownQueue.pops waits = some (rs, q1) →
          ∀ message, ∃ e, q1.push message = .error e) := by
  have hflag : q.shutdownQueue.shutdown = true := rfl
  have hqueue : q.shutdownQueue.queue = q.queue := rfl
  have hnil : q.queue = [] → q.shutdownQueue.pop true = some (none, q.shutdownQueue) := by
    intro h
    simp [MessageQueue.pop, hflag, hqueue, h]
  have hcons : ∀ m rest, q.queue = m :: rest →
      q.shutdownQueue.pop true = some (some m, { queue := rest, shutdown := true }) := by
    intro m rest h
    exact pop_nonempty q.shutdownQueue true m rest (by rw [hqueue, h])
  refine ⟨?_, hnil, hcons, fun message => push_closed _ message hflag, ?_⟩
  · cases hq : q.queue with
    | nil => rw [hnil hq]; simp
    | cons m rest => rw [hcons m rest hq]; simp
  · intro waits rs q1 h message
    exact push_closed q1 message (by rw [pops_keep_flag waits _ rs q1 h, hflag])

/-- C20: when the pushes of `m1..mn` onto an empty queue all succeed, `n` pops (blocking
or not) all return, and return `m1..mn` in the order pushed, each once; the queue is
then empty and a further `pop(false)` returns null. -/
theorem queue_fifo (q0 q : MessageQueue) (ms : List Message) (waits : List Bool)
    (hempty : q0.queue = []) (hpush : q0.pushAll ms = .ok q)
    (hn : waits.length = ms.length) :
    q.pops waits = some (ms.map some, { queue := [], shutdown := q0.shutdown })
      ∧ (MessageQueue.mk [] q0.shutdown).pop false
          = some (none, { queue := [], shutdown := q0.shutdown }) := by
  obtain ⟨h1, h2⟩ := pushAll_ok ms q0 q hpush
  rw [hempty, List.nil_append] at h1
  have h3 := pops_of_queue ms q [] waits (by rw [h1, List.append_nil]) hn
  rw [h2] at h3
  exact ⟨h3, by simp [MessageQueue.pop]⟩

theorem queue_fifo_witness :
    (MessageQueue.mk [Message.login [97] [98] [55], Message.generic .CUSTOM [104] [55]]
        false).pops [true, false]
      = some ([Message.login [97] [98] [55], Message.generic .CUSTOM [104] [55]].map some,
          { queue := [], shutdown := (MessageQueue.mk [] false).shutdown })
      ∧ (MessageQueue.mk [] (MessageQueue.mk [] false).shutdown).pop false
          = some (none, { queue := [], shutdown := (MessageQueue.mk [] false).shutdown }) :=
  queue_fifo (MessageQueue.mk [] false)
    (MessageQueue.mk [Message.login [97] [98] [55], Message.generic .CUSTOM [104] [55]] false)
    [Message.login [97] [98] [55], Message.generic .CUSTOM [104] [55]] [true, false]
    rfl rfl rfl

/-! ## Conversion of LOGIN and REGISTER frames -/

theorem indexOf_skip (c : Byte) (u rest : List Byte) (hu : c ∉ u) :
    (u ++ c :: rest).indexOf c = u.length := by
  rw [List.indexOf_append_of_not_mem hu, List.indexOf_cons_self]
  rfl

theorem strFind_none_of_not_mem (s : List Byte) (c : Byte) (pos : Nat)
    (h : c ∉ s.drop pos) : strFind s c pos = none := by
  simp only [strFind]
  rw [List.indexOf_of_not_mem h]
  simp

theorem strFind_found (s u rest : List Byte) (c : Byte) (pos : Nat)
    (h : s.drop pos = u ++ c :: rest) (hu : c ∉ u) :
    strFind s c pos = some (pos + u.length) := by
  simp only [strFind, h]
  rw [indexOf_skip c u rest hu]
  simp

theorem first_split (c : Byte) :
    ∀ s : List Byte, c ∈ s → ∃ u rest, s = u ++ c :: rest ∧ c ∉ u := by
  intro s
  induction s with
  | nil => intro h; cases h
  | cons a t ih =>
    intro h
    by_cases hac : a = c
    · exact ⟨[], t, by rw [hac]; rfl, by simp⟩
    · have ht : c ∈ t := by
        rcases List.mem_cons.mp h with h1 | h1
        · exact absurd h1.symm hac
        · exact h1
      obtain ⟨u, rest, hs, hu⟩ := ih ht
      refine ⟨a :: u, rest, by rw [hs]; rfl, ?_⟩
      intro hmem
      rcases List.mem_cons.mp hmem with h1 | h1
      · exact hac h1.symm
      · exact hu h1

theorem drop_past (u rest : List Byte) (c : Byte) :
    (u ++ c :: rest).drop (0 + u.length + 1) = rest := by
  rw [Nat.zero_add]
  have h : u ++ c :: rest = (u ++ [c]) ++ rest := by simp
  rw [h]
  have hl : u.length + 1 = (u ++ [c]).length := by simp
  rw [hl, List.drop_left]

theorem convert_login_eq (m : NetworkMessage) (clientId : Nat)
    (hid : m.header.messageId = 1001) :
    convertNetworkMessageToMessage m clientId
      = match strFind m.body pipeChar 0 with
        | some pos =>
          .login (substr m.body 0 pos) (substrFrom m.body (pos + 1)) (to_string clientId)
        | none => .login [] [] (to_string clientId) := by
  have hv : m.header.messageId.val = 1001 := by rw [hid]; rfl
  simp [convertNetworkMessageToMessage, hv]

theorem convert_register_eq (m : NetworkMessage) (clientId : Nat)
    (hid : m.header.messageId = 1002) :
    convertNetworkMessageToMessage m clientId
      = match strFind m.body pipeChar 0,
          strFind m.body pipeChar
            (match strFind m.body pipeChar 0 with | some p => p + 1 | none => 0) with
        | some p1, some p2 =>
          .register (substr m.body 0 p1) (substr m.body (p1 + 1) (p2 - p1 - 1))
            (substrFrom m.body (p2 + 1)) (to_string clientId)
        | _, _ => .register [] [] [] (to_string clientId) := by
  have hv : m.header.messageId.val = 1002 := by rw [hid]; rfl
  simp [convertNetworkMessageToMessage, hv]

theorem convert_login_split (m : NetworkMessage) (clientId : Nat)
    (hid : m.header.messageId = 1001) (u p : List Byte)
    (hbody : m.body = u ++ pipeChar :: p) (hu : pipeChar ∉ u) :
    convertNetworkMessageToMessage m clientId = .login u p (to_string clientId) := by
  rw [convert_login_eq m clientId hid,
    strFind_found m.body u p pipeChar 0 (by rw [List.drop_zero, hbody]) hu]
  simp only [substr, substrFrom, hbody, List.drop_zero, Nat.zero_add, List.take_left]
  rw [show u ++ pipeChar :: p = (u ++ [pipeChar]) ++ p by simp,
    show u.length + 1 = (u ++ [pipeChar]).length by simp, List.drop_left]

theorem convert_register_split (m : NetworkMessage) (clientId : Nat)
    (hid : m.header.messageId = 1002) (u p e : List Byte)
    (hbody : m.body = u ++ pipeChar :: (p ++ pipeChar :: e))
    (hu : pipeChar ∉ u) (hp : pipeChar ∉ p) :
    convertNetworkMessageToMessage m clientId = .register u p e (to_string clientId) := by
  have h1 : strFind m.body pipeChar 0 = some (0 + u.length) :=
    strFind_found m.body u _ pipeChar 0 (by rw [List.drop_zero, hbody]) hu
  have h2 : strFind m.body pipeChar (0 + u.length + 1) = some (0 + u.length + 1 + p.length) :=
    strFind_found m.body p e pipeChar _ (by rw [hbody, drop_past]) hp
  rw [convert_register_eq m clientId hid, h1]
  simp only [h2]
  have e1 : substr m.body 0 (0 + u.length) = u := by
    simp only [substr, hbody, List.drop_zero, Nat.zero_add, List.take_left]
  have e2 : substr m.body (0 + u.length + 1) (0 + u.length + 1 + p.length - (0 + u.length) - 1)
      = p := by
    have hn : 0 + u.length + 1 + p.length - (0 + u.length) - 1 = p.length := by omega
    simp only [substr, hbody, drop_past, hn, List.take_left]
  have e3 : substrFrom m.body (0 + u.length + 1 + p.length + 1) = e := by
    have hd : m.body.drop (0 + u.length + 1 + p.length + 1)
        = ((m.body.drop (0 + u.length + 1)).drop (0 + p.length + 1)) := by
      rw [List.drop_drop]
      congr 1
      omega
    rw [substrFrom, hd, hbody, drop_past, drop_past]
  rw [e1, e2, e3]

/-- C23: for every frame with message id 1001 and every client id,
`convertNetworkMessageToMessage` yields a `LoginMessage` whose client id is the decimal
string of the id; when the body is `u|p` with no `'|'` in `u`, the fields are `u` and
`p`; when the body has no `'|'`, both fields are empty. So for every username without
`'|'` and every password, converting `createLoginMessage(username, password)` gives a
`LoginMessage` with exactly that username and password. -/
theorem convert_login (m : NetworkMessage) (clientId : Nat)
    (hid : m.header.messageId = 1001) :
    (∃ username password,
        convertNetworkMessageToMessage m clientId
          = .login username password (to_string clientId))
      ∧ (∀ u p, m.body = u ++ pipeChar :: p → pipeChar ∉ u →
          convertNetworkMessageToMessage m clientId = .login u p (to_string clientId))
      ∧ (pipeChar ∉ m.body →
          convertNetworkMessageToMessage m clientId = .login [] [] (to_string clientId))
      ∧ (∀ username password, pipeChar ∉ username →
          convertNetworkMessageToMessage (MessageParser.createLoginMessage username password)
            clientId = .login username password (to_string clientId)) := by
  have hnone : pipeChar ∉ m.body →
      convertNetworkMessageToMessage m clientId = .login [] [] (to_string clientId) := by
    intro h
    rw [convert_login_eq m clientId hid,
      strFind_none_of_not_mem m.body pipeChar 0 (by rw [List.drop_zero]; exact h)]
  refine ⟨?_, fun u p hb hu => convert_login_split m clientId hid u p hb hu, hnone, ?_⟩
  · by_cases hmem : pipeChar ∈ m.body
    · obtain ⟨u, p, hb, hu⟩ := first_split pipeChar m.body hmem
      exact ⟨u, p, convert_login_split m clientId hid u p hb hu⟩
    · exact ⟨[], [], hnone hmem⟩
  · intro username password hu
    exact convert_login_split _ clientId rfl username password
      (by simp [MessageParser.createLoginMessage, MessageUtils.packLoginData,
        NetworkMessage.new]) hu

theorem convert_login_witness :
    (∃ username password,
        convertNetworkMessageToMessage
            (MessageParser.createLoginMessage (ascii "alice") (ascii "secret")) 7
          = .login username password (to_string 7))
      ∧ (∀ u p, (MessageParser.createLoginMessage (ascii "alice") (ascii "secret")).body
            = u ++ pipeChar :: p → pipeChar ∉ u →
          convertNetworkMessageToMessage
            (MessageParser.createLoginMessage (ascii "alice") (ascii "secret")) 7
            = .login u p (to_string 7))
      ∧ (pipeChar ∉ (MessageParser.createLoginMessage (ascii "alice") (ascii "secret")).body →
          convertNetworkMessageToMessage
            (MessageParser.createLoginMessage (ascii "alice") (ascii "secret")) 7
            = .login [] [] (to_string 7))
      ∧ (∀ username password, pipeChar ∉ username →
          convertNetworkMessageToMessage (MessageParser.createLoginMessage username password)
            7 = .login username password (to_string 7)) :=
  convert_login (MessageParser.createLoginMessage (ascii "alice") (ascii "secret")) 7 rfl

/-- C24: for every username and password without `'|'` and every email, converting
`createRegisterMessage(username, password, email)` yields a `RegisterMessage` with
exactly these three fields; the body `bob|pw|bob@x.com` gives `bob`, `pw` and
`bob@x.com`; and a frame with message id 1002 whose body holds fewer than two `'|'`
gives three empty fields. -/
theorem convert_register (clientId : Nat) :
    (∀ username password email, pipeChar ∉ username → pipeChar ∉ password →
        convertNetworkMessageToMessage
          (MessageParser.createRegisterMessage username password email) clientId
          = .register username password email (to_string clientId))
      ∧ convertNetworkMessageToMessage (NetworkMessage.new 1002 (ascii "bob|pw|bob@x.com"))
          clientId
          = .register (ascii "bob") (ascii "pw") (ascii "bob@x.com") (to_string clientId)
      ∧ (∀ m : NetworkMessage, m.header.messageId = 1002 → m.body.count pipeChar < 2 →
          convertNetworkMessageToMessage m clientId
            = .register [] [] [] (to_string clientId)) := by
  refine ⟨?_, ?_, ?_⟩
  · intro username password email hu hp
    exact convert_register_split _ clientId rfl username password email
      (by simp [MessageParser.createRegisterMessage, MessageUtils.packRegisterData,
        NetworkMessage.new]) hu hp
  · exact convert_register_split _ clientId rfl (ascii "bob") (ascii "pw") (ascii "bob@x.com")
      (by decide) (by decide) (by decide)
  · intro m hid hcount
    rw [convert_register_eq m clientId hid]
    by_cases hmem : pipeChar ∈ m.body
    · obtain ⟨u, rest, hb, hu⟩ := first_split pipeChar m.body hmem
      have h1 : strFind m.body pipeChar 0 = some (0 + u.length) :=
        strFind_found m.body u rest pipeChar 0 (by rw [List.drop_zero, hb]) hu
      have hrest : pipeChar ∉ rest := by
        intro hin
        have hc : 0 < rest.count pipeChar := List.count_pos_iff.mpr hin
        rw [hb, List.count_append, List.count_cons_self] at hcount
        omega
      have h2 : strFind m.body pipeChar (0 + u.length + 1) = none :=
        strFind_none_of_not_mem m.body pipeChar _ (by rw [hb, drop_past]; exact hrest)
      rw [h1]
      simp only [h2]
    · have h1 : strFind m.body pipeChar 0 = none :=
        strFind_none_of_not_mem m.body pipeChar 0 (by rw [List.drop_zero]; exact hmem)
      rw [h1]


/-! ## Dispatch of messages by the main loop -/

theorem handleMessage_found (h : MainLoopHandler) (message : Message) (f : MessageHandler)
    (hf : h.handlers message.getType = some (some f)) :
    h.handleMessage message = { invoked := [(f, message)], run := f message } := by
  simp [MainLoopHandler.handleMessage, hf]

theorem registerHandler_lookup (h : MainLoopHandler) (type : MessageType)
    (f : MessageHandler) :
    (h.registerHandler type (some f)).2.handlers type = some (some f) := by
  simp [MainLoopHandler.registerHandler]

/-- C21: `handleMessage` calls, once and with the message given, the handler the table
holds for the message's tag, and calls nothing when the tag has no handler. After
`registerHandler(type, f)` the table holds `f` for `type` and is unchanged for every
other tag, so a second registration for a tag replaces the first and the handler called
is the one registered last; an empty handler is refused and leaves the table as it is. -/
theorem handleMessage_dispatch (h : MainLoopHandler) (message : Message) :
    (∀ f, h.handlers message.getType = some (some f) →
        (h.handleMessage message).invoked = [(f, message)]
        ∧ (h.handleMessage message).run = f message)
      ∧ (h.handlers message.getType = none →
          (h.handleMessage message).invoked = []
          ∧ (h.handleMessage message).run = { responses := [], thrown := none })
      ∧ (∀ (type : MessageType) (f : MessageHandler),
          (h.registerHandler type (some f)).1 = true
          ∧ (h.registerHandler type (some f)).2.handlers type = some (some f)
          ∧ ∀ t, t ≠ type → (h.registerHandler type (some f)).2.handlers t = h.handlers t)
      ∧ (∀ f g : MessageHandler,
          (((h.registerHandler message.getType (some f)).2.registerHandler message.getType
            (some g)).2.handleMessage message).invoked = [(g, message)])
      ∧ (∀ type, h.registerHandler type none = (false, h)) := by
  refine ⟨?_, ?_, ?_, ?_, fun _ => rfl⟩
  · intro f hf
    rw [handleMessage_found h message f hf]
    exact ⟨rfl, rfl⟩
  · intro hnone
    simp [MainLoopHandler.handleMessage, hnone]
  · intro type f
    refine ⟨rfl, registerHandler_lookup h type f, ?_⟩
    intro t ht
    simp [MainLoopHandler.registerHandler, Function.update_noteq ht]
  · intro f g
    rw [handleMessage_found _ message g (registerHandler_lookup _ _ g)]

theorem iteration_of_front (ml : MainLoop) (messageHandler : MainLoopHandler)
    (m : Message) (rest : List Message) (hq : ml.messageQueue.queue = m :: rest) :
    ml.iteration messageHandler
      = match (messageHandler.handleMessage m).run.thrown with
        | none =>
          { mainLoop := { messageQueue := { queue := rest, shutdown := ml.messageQueue.shutdown } }
            responses := (messageHandler.handleMessage m).run.responses
            caught := false, escaped := false }
        | some .stdException =>
          { mainLoop := { messageQueue := { queue := rest, shutdown := ml.messageQueue.shutdown } }
            responses := (messageHandler.handleMessage m).run.responses
            caught := true, escaped := false }
        | some .other =>
          { mainLoop := { messageQueue := { queue := rest, shutdown := ml.messageQueue.shutdown } }
            responses := (messageHandler.handleMessage m).run.responses
            caught := false, escaped := true } := by
  simp only [MainLoop.iteration, MainLoop.getNextMessage,
    pop_nonempty ml.messageQueue false m rest hq]

/-- C22, as stated, fails: with a handler registered for `CUSTOM` that throws an
exception derived from `std::exception`, the iteration that dispatches a `CUSTOM`
message of client 7 ends in the `catch` block and no response at all, hence no
SERVICE_ERROR, has been sent; and with a handler that throws an object not derived from
`std::exception` the exception leaves `runLoop`. -/
theorem dispatch_sends_no_service_error :
    (twoQueued.iteration
        (MainLoopHandler.new.registerHandler .CUSTOM (some throwingHandler)).2).caught = true
      ∧ (twoQueued.iteration
          (MainLoopHandler.new.registerHandler .CUSTOM (some throwingHandler)).2).responses = []
      ∧ (twoQueued.iteration
          (MainLoopHandler.new.registerHandler .CUSTOM (some rudeHandler)).2).escaped = true := by
  decide

/-- C22, amended: for every registered handler and every message on which that handler
raises an exception derived from `std::exception`, the main loop catches the exception,
sends no response of its own (the only responses are those the handler had sent), and
goes on with the following messages exactly as it would have from the rest of the queue;
the exception does not leave the main loop. The SERVICE_ERROR response comes from the
registered `LOGIN` and `REGISTER` handlers, which catch such an exception of the account
call themselves and answer the originating client. -/
theorem dispatch_catches_std_exception (ml : MainLoop) (messageHandler : MainLoopHandler)
    (m : Message) (rest : List Message) (f : MessageHandler) (n : Nat)
    (hq : ml.messageQueue.queue = m :: rest)
    (hf : messageHandler.handlers m.getType = some (some f))
    (hthrow : (f m).thrown = some .stdException) :
    (ml.iteration messageHandler).caught = true
      ∧ (ml.iteration messageHandler).escaped = false
      ∧ (ml.iteration messageHandler).responses = (f m).responses
      ∧ (ml.iteration messageHandler).mainLoop.messageQueue.queue = rest
      ∧ MainLoop.runLoop messageHandler (n + 1) ml
          = ((MainLoop.runLoop messageHandler n
                { messageQueue := { queue := rest, shutdown := ml.messageQueue.shutdown } }).1,
             (f m).responses ++ (MainLoop.runLoop messageHandler n
                { messageQueue := { queue := rest, shutdown := ml.messageQueue.shutdown } }).2.1,
             (MainLoop.runLoop messageHandler n
                { messageQueue := { queue := rest, shutdown := ml.messageQueue.shutdown } }).2.2)
      ∧ (∀ verifyPassword username password clientId,
          verifyPassword username password = .error .stdException →
          loginHandler verifyPassword (.login username password clientId)
            = { responses := [⟨clientId, .SERVICE_ERROR, ascii "Failed to process login", []⟩]
                thrown := none })
      ∧ (∀ createAccount username password email clientId,
          createAccount username password email = .error .stdException →
          registerMessageHandler createAccount (.register username password email clientId)
            = { responses :=
                  [⟨clientId, .SERVICE_ERROR, ascii "Failed to process register", []⟩]
                thrown := none }) := by
  have hit := iteration_of_front ml messageHandler m rest hq
  rw [handleMessage_found messageHandler m f hf] at hit
  simp only [hthrow] at hit
  refine ⟨by rw [hit], by rw [hit], by rw [hit], by rw [hit], ?_, ?_, ?_⟩
  · rw [MainLoop.runLoop]
    simp only [hit, Bool.false_eq_true, if_false]
  · intro verifyPassword username password clientId hv
    simp only [loginHandler, hv]
  · intro createAccount username password email clientId hv
    simp only [registerMessageHandler, hv]

theorem dispatch_catches_std_exception_witness :
    (twoQueued.iteration
        (MainLoopHandler.new.registerHandler .CUSTOM (some throwingHandler)).2).caught = true
      ∧ (twoQueued.iteration
          (MainLoopHandler.new.registerHandler .CUSTOM (some throwingHandler)).2).escaped = false
      ∧ (twoQueued.iteration
          (MainLoopHandler.new.registerHandler .CUSTOM (some throwingHandler)).2).responses
          = (throwingHandler (.generic .CUSTOM (ascii "hi") (ascii "7"))).responses
      ∧ (twoQueued.iteration
          (MainLoopHandler.new.registerHandler .CUSTOM
            (some throwingHandler)).2).mainLoop.messageQueue.queue
          = [.login (ascii "alice") (ascii "secret") (ascii "7")]
      ∧ MainLoop.runLoop (MainLoopHandler.new.registerHandler .CUSTOM (some throwingHandler)).2
          (1 + 1) twoQueued
          = ((MainLoop.runLoop
                (MainLoopHandler.new.registerHandler .CUSTOM (some throwingHandler)).2 1
                { messageQueue :=
                    { queue := [.login (ascii "alice") (ascii "secret") (ascii "7")]
                      shutdown := twoQueued.messageQueue.shutdown } }).1,
             (throwingHandler (.generic .CUSTOM (ascii "hi") (ascii "7"))).responses
               ++ (MainLoop.runLoop
                (MainLoopHandler.new.registerHandler .CUSTOM (some throwingHandler)).2 1
                { messageQueue :=
                    { queue := [.login (ascii "alice") (ascii "secret") (ascii "7")]
                      shutdown := twoQueued.messageQueue.shutdown } }).2.1,
             (MainLoop.runLoop
                (MainLoopHandler.new.registerHandler .CUSTOM (some throwingHandler)).2 1
                { messageQueue :=
                    { queue := [.login (ascii "alice") (ascii "secret") (ascii "7")]
                      shutdown := twoQueued.messageQueue.shutdown } }).2.2)
      ∧ (∀ verifyPassword username password clientId,
          verifyPassword username password = .error .stdException →
          loginHandler verifyPassword (.login username password clientId)
            = { responses := [⟨clientId, .SERVICE_ERROR, ascii "Failed to process login", []⟩]
                thrown := none })
      ∧ (∀ createAccount username password email clientId,
          createAccount username password email = .error .stdException →
          registerMessageHandler createAccount (.register username password email clientId)
            = { responses :=
                  [⟨clientId, .SERVICE_ERROR, ascii "Failed to process register", []⟩]
                thrown := none }) :=
  dispatch_catches_std_exception twoQueued
    (MainLoopHandler.new.registerHandler .CUSTOM (some throwingHandler)).2
    (.generic .CUSTOM (ascii "hi") (ascii "7"))
    [.login (ascii "alice") (ascii "secret") (ascii "7")] throwingHandler 1 rfl rfl rfl

/-- C25: a `LoginMessage` dispatched with the `LOGIN` handler registered is passed, once,
to that handler. When `verifyPassword(username, password)` returns true the handler
makes the single call `sendResponse(clientId, SUCCESS, "Login successful", "")` with the
client id of the message, and the text built for it is `RESPONSE:0:Login successful`;
when it returns false the call carries SERVICE_ERROR and `Invalid credentials`, and the
text is `RESPONSE:1:Invalid credentials`. The text is
`RESPONSE:` type number `:` message, followed by `:` data only when data is not empty,
and it goes to the socket `std::stoi` reads from the client id. -/
theorem login_response (verifyPassword : List Byte → List Byte → Except Thrown Bool)
    (stoi : List Byte → Option Int) (h : MainLoopHandler)
    (username password clientId : List Byte) :
    ((h.registerHandler .LOGIN (some (loginHandler verifyPassword))).2.handleMessage
        (.login username password clientId)).invoked
        = [(loginHandler verifyPassword, .login username password clientId)]
      ∧ (verifyPassword username password = .ok true →
          ((h.registerHandler .LOGIN (some (loginHandler verifyPassword))).2.handleMessage
            (.login username password clientId)).run
            = { responses := [⟨clientId, .SUCCESS, ascii "Login successful", []⟩]
                thrown := none }
          ∧ responseText .SUCCESS (ascii "Login successful") []
              = ascii "RESPONSE:0:Login successful"
          ∧ sendResponse true stoi ⟨clientId, .SUCCESS, ascii "Login successful", []⟩
              = (stoi clientId).map fun s => (s, ascii "RESPONSE:0:Login successful"))
      ∧ (verifyPassword username password = .ok false →
          ((h.registerHandler .LOGIN (some (loginHandler verifyPassword))).2.handleMessage
            (.login username password clientId)).run
            = { responses := [⟨clientId, .SERVICE_ERROR, ascii "Invalid credentials", []⟩]
                thrown := none }
          ∧ responseText .SERVICE_ERROR (ascii "Invalid credentials") []
              = ascii "RESPONSE:1:Invalid credentials"
          ∧ sendResponse true stoi ⟨clientId, .SERVICE_ERROR, ascii "Invalid credentials", []⟩
              = (stoi clientId).map fun s => (s, ascii "RESPONSE:1:Invalid credentials"))
      ∧ (∀ (responseType : ResponseType) (message data : List Byte),
          responseText responseType message data
            = ascii "RESPONSE:" ++ to_string responseType.toInt ++ ascii ":" ++ message
                ++ (if data = [] then [] else ascii ":" ++ data))
      ∧ ResponseType.SUCCESS.toInt = 0 ∧ ResponseType.SERVICE_ERROR.toInt = 1 := by
  have hfound := handleMessage_found
    (h.registerHandler .LOGIN (some (loginHandler verifyPassword))).2
    (.login username password clientId) (loginHandler verifyPassword)
    (registerHandler_lookup h .LOGIN (loginHandler verifyPassword))
  have ht1 : responseText .SUCCESS (ascii "Login successful") []
      = ascii "RESPONSE:0:Login successful" := by decide
  have ht2 : responseText .SERVICE_ERROR (ascii "Invalid credentials") []
      = ascii "RESPONSE:1:Invalid credentials" := by decide
  refine ⟨by rw [hfound], ?_, ?_, ?_, rfl, rfl⟩
  · intro hv
    refine ⟨by rw [hfound]; simp only [loginHandler, hv], ht1, ?_⟩
    simp only [sendResponse, NetworkServer.sendResponseToClient, if_true, ht1]
    cases stoi clientId <;> rfl
  · intro hv
    refine ⟨by rw [hfound]; simp only [loginHandler, hv], ht2, ?_⟩
    simp only [sendResponse, NetworkServer.sendResponseToClient, if_true, ht2]
    cases stoi clientId <;> rfl
  · intro responseType message data
    cases data with
    | nil => simp [responseText]
    | cons x xs => simp [responseText]


/-! ## The legacy text requests -/

theorem legacyLogin_head (u p : List Byte) :
    substr (legacyLogin u p) 0 6 = ascii "LOGIN:" := by
  have h : legacyLogin u p = ascii "LOGIN:" ++ (u ++ [colonChar] ++ p) := by
    simp [legacyLogin]
  have hl : (ascii "LOGIN:").length = 6 := by decide
  rw [substr, List.drop_zero, h, ← hl, List.take_left]

theorem legacyLogin_colons (u p : List Byte) (hu : colonChar ∉ u) (hp : colonChar ∉ p) :
    strFind (legacyLogin u p) colonChar 6 = some (6 + u.length)
      ∧ strFind (legacyLogin u p) colonChar (6 + u.length + 1) = none := by
  have h : legacyLogin u p = ascii "LOGIN:" ++ (u ++ colonChar :: p) := by
    simp [legacyLogin]
  have hl : (ascii "LOGIN:").length = 6 := by decide
  have hd : (legacyLogin u p).drop 6 = u ++ colonChar :: p := by
    rw [h, ← hl, List.drop_left]
  refine ⟨strFind_found _ u p colonChar 6 hd hu, ?_⟩
  apply strFind_none_of_not_mem
  have hd2 : (legacyLogin u p).drop (6 + u.length + 1)
      = ((legacyLogin u p).drop 6).drop (0 + u.length + 1) := by
    rw [List.drop_drop]
    congr 1
    omega
  rw [hd2, hd, drop_past]
  exact hp

/-- Every legacy request `LOGIN:u:p` whose `u` and `p` hold no `':'` is answered with the
invalid-format error by `processLoginRequest`, and `handleClient` makes no message of it
and answers that the format is not recognized: the search for the first colon starts at
index 6, after the colon that follows `LOGIN`. -/
theorem legacy_login_always_rejected (getAccountByUsername : List Byte → Option AccountInfo)
    (mainLoop : Option MainLoop) (clientSocket : Nat) (u p : List Byte)
    (hu : colonChar ∉ u) (hp : colonChar ∉ p) :
    NetworkServer.processLoginRequest getAccountByUsername (legacyLogin u p)
        = invalidLoginFormat
      ∧ NetworkServer.parseRequest clientSocket (legacyLogin u p) = none
      ∧ NetworkServer.requestReply mainLoop
          (NetworkServer.parseRequest clientSocket (legacyLogin u p))
          = ascii "ERROR: Unrecognized message format." := by
  obtain ⟨h1, h2⟩ := legacyLogin_colons u p hu hp
  have hparse : NetworkServer.parseRequest clientSocket (legacyLogin u p) = none := by
    simp only [NetworkServer.parseRequest, legacyLogin_head, if_true, h1, h2]
  refine ⟨?_, hparse, ?_⟩
  · simp only [NetworkServer.processLoginRequest, legacyLogin_head, if_true, h1, h2]
  · rw [hparse]
    rfl

/-- C26 fails on the code: the legacy request `LOGIN:alice:secret`, for an account
`alice` whose password is `secret`, is answered by `processLoginRequest` with the
invalid-format error, not with the outcome of the account check; `handleClient` makes no
message of it and answers `ERROR: Unrecognized message format.`. -/
theorem legacy_login_rejected :
    legacyLogin (ascii "alice") (ascii "secret") = ascii "LOGIN:alice:secret"
      ∧ NetworkServer.processLoginRequest (fun _ => some { password := ascii "secret" })
          (ascii "LOGIN:alice:secret")
          = ascii "ERROR:Invalid login format. Use LOGIN:username:password"
      ∧ NetworkServer.parseRequest 7 (ascii "LOGIN:alice:secret") = none
      ∧ NetworkServer.requestReply freshServer.mainLoop
          (NetworkServer.parseRequest 7 (ascii "LOGIN:alice:secret"))
          = ascii "ERROR: Unrecognized message format." := by
  decide

/-! ## `removeSocket` in the two backends -/

/-- C27 fails on the code: on an initialized `WindowsIOCP` backend with socket 3
registered, `removeSocket(5)`, for the unregistered handle 5, returns true (the set of
registered sockets stays as it is); the `LinuxEpoll` backend in the same state returns
false. -/
theorem iocp_removeSocket_unknown_returns_true :
    (WindowsIOCP.mk true [3]).isSocketRegistered 5 = false
      ∧ ((WindowsIOCP.mk true [3]).removeSocket 5).1 = true
      ∧ ((WindowsIOCP.mk true [3]).removeSocket 5).2 = WindowsIOCP.mk true [3]
      ∧ ((LinuxEpoll.mk true [3] [3]).removeSocket 5).1 = false
      ∧ ((LinuxEpoll.mk true [3] [3]).removeSocket 5).2 = LinuxEpoll.mk true [3] [3] := by
  decide

theorem filter_ne_of_not_mem (l : List Nat) (socket : Nat) (h : socket ∉ l) :
    l.filter (fun s => s != socket) = l := by
  apply List.filter_eq_self.mpr
  intro a ha
  simp only [bne_iff_ne, ne_eq]
  intro hc
  exact h (hc ▸ ha)

/-- What holds of `removeSocket` on an initialized backend. `LinuxEpoll`, while the
kernel's interest list holds exactly the registered sockets, does what C27 says.
`WindowsIOCP` always returns true; the set of registered sockets is left unchanged for an
unknown handle, and a registered handle is no longer registered afterwards. -/
theorem removeSocket_behaviour (socket : Nat) :
    (∀ b : LinuxEpoll, b.initialized = true → b.interest = b.socketContexts →
        (b.isSocketRegistered socket = false →
          (b.removeSocket socket).1 = false ∧ (b.removeSocket socket).2 = b)
        ∧ (b.isSocketRegistered socket = true →
          (b.removeSocket socket).1 = true
          ∧ (b.removeSocket socket).2.isSocketRegistered socket = false))
      ∧ (∀ b : WindowsIOCP, b.initialized = true →
          (b.removeSocket socket).1 = true
          ∧ (b.removeSocket socket).2.isSocketRegistered socket = false
          ∧ (b.isSocketRegistered socket = false → (b.removeSocket socket).2 = b)) := by
  refine ⟨?_, ?_⟩
  · intro b hinit hsync
    refine ⟨?_, ?_⟩
    · intro hreg
      have hn : socket ∉ b.interest := by
        rw [hsync]
        simpa [LinuxEpoll.isSocketRegistered] using hreg
      simp [LinuxEpoll.removeSocket, hinit, hn]
    · intro hreg
      have hn : socket ∈ b.interest := by
        rw [hsync]
        simpa [LinuxEpoll.isSocketRegistered] using hreg
      simp [LinuxEpoll.removeSocket, hinit, hn, LinuxEpoll.isSocketRegistered]
  · intro b hinit
    cases b with
    | mk init contexts =>
      simp only at hinit
      subst hinit
      refine ⟨rfl, ?_, ?_⟩
      · simp [WindowsIOCP.removeSocket, WindowsIOCP.isSocketRegistered]
      · intro hreg
        have hnot : socket ∉ contexts := by
          simpa [WindowsIOCP.isSocketRegistered] using hreg
        simp only [WindowsIOCP.removeSocket, Bool.not_true, Bool.false_eq_true, if_false]
        rw [filter_ne_of_not_mem contexts socket hnot]

/-! ## The connection pool: accounting of `acquire` and the background passes -/

/-- A cleanup tick removes at most one idle connection and lowers `currentPoolSize` only
while it is above `minPoolSize`, so it never takes it from `minPoolSize` or more to less
than `minPoolSize`, and leaves the pool alone when it is not above `minPoolSize`. -/
theorem cleanup_keeps_poolSize_floor (p : MySQLPool) (idleTooLong : Bool) :
    (p.config.minPoolSize ≤ p.currentPoolSize →
        p.config.minPoolSize ≤ (p.cleanupTick idleTooLong).currentPoolSize)
      ∧ (p.currentPoolSize ≤ p.config.minPoolSize → p.cleanupTick idleTooLong = p)
      ∧ (p.cleanupTick idleTooLong).config = p.config := by
  unfold MySQLPool.cleanupTick MySQLPool.cleanupIdleConnections
  refine ⟨?_, ?_, ?_⟩
  · intro h
    split
    · exact h
    · split
      · rename_i hc
        simp only [Bool.and_eq_true, decide_eq_true_eq] at hc
        split
        · simp only; omega
        · exact h
      · exact h
  · intro h
    split
    · rfl
    · have hc : ¬ (p.currentPoolSize > p.config.minPoolSize) := by omega
      simp [hc]
  · split
    · rfl
    · split
      · split <;> rfl
      · rfl

theorem replaceUnhealthyConnection_length (db : Nat → Bool) (p : MySQLPool) (i : Nat) :
    (p.replaceUnhealthyConnection db i).idleConnections.length = p.idleConnections.length := by
  unfold MySQLPool.replaceUnhealthyConnection
  simp only
  split
  · rw [(createConnection_fails db _).2]
    simp
  · simp

/-- A health-check pass never appends to the idle list it walks over, since no
replacement connection is ever created: its outcome is defined in every pool state. -/
theorem healthCheckFrom_defined (db : Nat → Bool) (k : Nat) :
    ∀ (i : Nat) (p : MySQLPool), (MySQLPool.healthCheckFrom db k i p).isSome = true := by
  induction k with
  | zero => intro i p; rfl
  | succ n ih =>
    intro i p
    rw [MySQLPool.healthCheckFrom]
    split
    · simp only [replaceUnhealthyConnection_length, if_true]
      exact ih _ _
    · exact ih _ _

/-- C30 fails on the code: in a running pool (`minPoolSize = 0`, `maxPoolSize = 2`) with a
database that accepts every connection, one health-check pass, in which no replacement
connect fails, leaves the pool as it was, and the `acquire()` that follows returns null. -/
theorem acquire_after_healthCheck_returns_null :
    (startedPool { minPoolSize := 0, maxPoolSize := 2 }).1 = true
      ∧ (startedPool { minPoolSize := 0, maxPoolSize := 2 }).2.shutdown = false
      ∧ (startedPool { minPoolSize := 0, maxPoolSize := 2 }).2.healthCheckPass alwaysUp
          = some (startedPool { minPoolSize := 0, maxPoolSize := 2 }).2
      ∧ ((startedPool { minPoolSize := 0, maxPoolSize := 2 }).2.acquire alwaysUp).1 = none := by
  decide


end GameServer
